import Mathlib

/-!
Verification development for the white-whale stableswap 3-pool
(`contracts/liquidity_hub/pool-network/stableswap_3pool`).

The execute handlers (`commands.rs`) and query handlers (`queries.rs`) are
translated from the source.  The arithmetic helpers they call
(`helpers.rs`, `stableswap_math/curve.rs`, `state.rs`, the `terraswap`
asset utilities and the `white_whale` fee type) are not part of the
source tree; those definitions are modelled from the specification and
are marked as such in their doc comments.

Machine integers are embedded as `Nat` with explicit checked operations:
`Uint128` arithmetic fails (or panics, where the source panics) once a
result leaves `[0, 2^128)`, the `U256` big integers used by the
invariant solver fail above `2^256`, and `Decimal` ratios are carried as
integer numerators over `10^18`.
-/

/-- Upper bound of the platform's `Uint128` type: values live in `[0, 2^128)`. -/
def uint128Bound : Nat := 2 ^ 128

/-- Upper bound of the platform's `U256` big-integer type. -/
def u256Bound : Nat := 2 ^ 256

/-- Fractional unit of the platform's `Decimal`/`Decimal256` types:
ratios are integer numerators over `10^18`. -/
def decimalFractional : Nat := 10 ^ 18

/-- Overflow-checked `Uint128` addition (`checked_add`). -/
def checkedAdd128 (a b : Nat) : Option Nat :=
  if a + b < uint128Bound then some (a + b) else none

/-- Overflow-checked unsigned subtraction (`checked_sub`); fails on underflow. -/
def checkedSub (a b : Nat) : Option Nat :=
  if b ≤ a then some (a - b) else none

/-- Overflow-checked `U256` multiplication (`checked_mul`). -/
def checkedMul256 (a b : Nat) : Option Nat :=
  if a * b < u256Bound then some (a * b) else none

/-- Checked division (`checked_div`); fails on a zero divisor, floors otherwise. -/
def checkedDiv (a b : Nat) : Option Nat :=
  if b = 0 then none else some (a / b)

/-- Asset identity as used by the pool: a native coin denomination or a
cw20 token contract address (`terraswap::asset::AssetInfo`). -/
inductive AssetInfo where
  | nativeToken (denom : String)
  | token (contractAddr : String)
  deriving DecidableEq, Repr

/-- An asset paired with an amount (`terraswap::asset::Asset`);
the amount is a `Uint128` value. -/
structure Asset where
  info : AssetInfo
  amount : Nat
  deriving DecidableEq, Repr

/-- Modelled from the spec: `Asset::get_id` of the missing
`terraswap/src/asset.rs` — the asset identifier string, i.e. the native
denomination or the token contract address (spec §3 keys both fee
ledgers by `AssetId`). -/
def Asset.getId (a : Asset) : String :=
  match a.info with
  | .nativeToken denom => denom
  | .token contractAddr => contractAddr

/-- Typed errors of the contract (`error.rs` variants surfaced by the
translated handlers).  `panicked` models a Rust panic — an abort that is
not a typed contract error (e.g. the unchecked `Uint128` subtraction in
`query_pool`, or `.unwrap()` on solver results). -/
inductive ContractError where
  | assetMismatch
  | overflow
  | invalidZeroAmount
  | invalidInitialLiquidityAmount (minimum : Nat)
  | maxSpreadExceeded
  | maxSlippageAssertion
  | operationDisabled (op : String)
  | unauthorized
  | convergenceFailure
  | panicked (msg : String)
  deriving DecidableEq, Repr

/-- Checked `Uint128` subtraction as an `Except`, failing with
`OverflowError` exactly as `a.checked_sub(b)?` does in the handlers. -/
def checkedSubE (a b : Nat) : Except ContractError Nat :=
  if b ≤ a then .ok (a - b) else .error .overflow

/-- Checked `Uint128` addition as an `Except` (`checked_add` with the
overflow surfaced as `OverflowError`). -/
def checkedAddE (a b : Nat) : Except ContractError Nat :=
  if a + b < uint128Bound then .ok (a + b) else .error .overflow

/-- Modelled from the spec: `get_protocol_fee_for_asset` of the missing
`helpers.rs` — the pending protocol-fee ledger amount recorded for the
given asset id, zero when the asset has no entry. -/
def getProtocolFeeForAsset (collectedProtocolFees : List Asset) (assetId : String) : Nat :=
  match collectedProtocolFees.find? (fun a => a.getId = assetId) with
  | some a => a.amount
  | none => 0

/-- Whether a fee ledger has an entry under the given asset id. -/
def containsId (ledger : List Asset) (assetId : String) : Bool :=
  ledger.any (fun a => a.getId = assetId)

/-- Modelled from the spec: `store_fee` of the missing `state.rs` — the
`FeeLedger.record(asset, amount)` operation of spec §6: every ledger
entry under the given asset id is increased by the fee, with
overflow-checked addition. -/
def storeFee (ledger : List Asset) (fee : Nat) (assetId : String) :
    Except ContractError (List Asset) :=
  match ledger with
  | [] => .ok []
  | a :: rest =>
    match storeFee rest fee assetId with
    | .error e => .error e
    | .ok rest2 =>
      if a.getId = assetId then
        match checkedAddE a.amount fee with
        | .error e => .error e
        | .ok amount2 => .ok (⟨a.info, amount2⟩ :: rest2)
      else
        .ok (a :: rest2)

/-- Reading a ledger entry and reading the pending-fee map are the same
lookup; `ledgerAmount` is the name used for the all-time ledgers. -/
def ledgerAmount (ledger : List Asset) (assetId : String) : Nat :=
  getProtocolFeeForAsset ledger assetId

/-- Amplification schedule of spec §3 (`StableSwap` of the missing
`stableswap_math/curve.rs`): initial and future amplification with the
block range over which the factor is ramped. -/
structure StableSwap where
  initialAmp : Nat
  futureAmp : Nat
  currentTs : Nat
  startRampTs : Nat
  stopRampTs : Nat
  deriving DecidableEq, Repr

/-- A constant amplification schedule: `StableSwap::new(amp, amp, 0, 0, 0)`,
the invariant used by the execute paths (`commands.rs` lines 181 and 416). -/
def constantInvariant (amp : Nat) : StableSwap :=
  ⟨amp, amp, 0, 0, 0⟩

/-- Modelled from the spec: `compute_amp_factor` of the missing
`curve.rs` — spec §3: the effective amplification is `initial_amp` up to
the start of the ramp, `future_amp` from its end, and linearly
interpolated in between (interpolation over an empty block range is
undefined). -/
def StableSwap.computeAmpFactor (s : StableSwap) : Option Nat :=
  if s.currentTs < s.stopRampTs then
    if s.stopRampTs = s.startRampTs then none
    else if s.initialAmp ≤ s.futureAmp then
      some (s.initialAmp +
        (s.futureAmp - s.initialAmp) * (s.currentTs - s.startRampTs) /
          (s.stopRampTs - s.startRampTs))
    else
      some (s.initialAmp -
        (s.initialAmp - s.futureAmp) * (s.currentTs - s.startRampTs) /
          (s.stopRampTs - s.startRampTs))
  else some s.futureAmp

/-- The pool arity: three assets. -/
def nCoins : Nat := 3

/-- The Newton iteration bound of spec §4.1. -/
def solverIterations : Nat := 256

/-- One product accumulation step of the `D` solve:
`d_prod * d / (x * nCoins)` with checked `U256` arithmetic (a zero
reserve makes the division fail). -/
def dProdStep (dProd d x : Nat) : Option Nat := do
  let m ← checkedMul256 dProd d
  checkedDiv m (x * nCoins)

/-- Modelled from the spec: one Newton update of the `D` solve (spec
§4.1), `d ← (ann·Σxᵢ + N·d_prod)·d / ((ann − 1)·d + (N+1)·d_prod)`
where `ann` is the amplification coefficient; division and
subtraction are checked. -/
def computeNextD (ann dInit dProd sumX : Nat) : Option Nat := do
  let leverage ← checkedMul256 sumX ann
  let dpn ← checkedMul256 dProd nCoins
  let numerator ← checkedMul256 dInit (dpn + leverage)
  let annm1 ← if 1 ≤ ann then some (ann - 1) else none
  let t1 ← checkedMul256 dInit annm1
  let t2 ← checkedMul256 dProd (nCoins + 1)
  checkedDiv numerator (t1 + t2)

/-- Modelled from the spec: the Newton iteration for `D` (spec §4.1),
terminating when successive iterates differ by at most one unit;
exhausting the iteration bound is a convergence failure (`none`). -/
def dIter (ann a b c sumX : Nat) : Nat → Nat → Option Nat
  | 0, _ => none
  | fuel + 1, d => do
    let p1 ← dProdStep d d a
    let p2 ← dProdStep p1 d b
    let dProd ← dProdStep p2 d c
    let d2 ← computeNextD ann d dProd sumX
    if d2 ≥ d then
      if d2 - d ≤ 1 then some d2 else dIter ann a b c sumX fuel d2
    else
      if d - d2 ≤ 1 then some d2 else dIter ann a b c sumX fuel d2

/-- The `D` solve for a fixed amplification coefficient `ann`,
starting from `D₀ = Σxᵢ`. -/
def computeDCore (ann a b c : Nat) : Option Nat :=
  let sumX := a + b + c
  if sumX = 0 then some 0
  else if uint128Bound ≤ sumX then none
  else dIter ann a b c sumX solverIterations sumX

/-- Modelled from the spec: `compute_d` of the missing `curve.rs` (spec
§4.1) — solves the StableSwap invariant for `D` by Newton iteration.
The amplification coefficient `ann = amp · nCoins` is fixed by the
spec §8 regression vector. -/
def StableSwap.computeD (s : StableSwap) (a b c : Nat) : Option Nat := do
  let amp ← s.computeAmpFactor
  computeDCore (amp * nCoins) a b c

/-- The single-reserve Newton iteration of `compute_new_reserve`
(spec §4.1): solve `y² + b·y = c` by `y ← (y² + c) / (2y + b − d)`. -/
def yIter (b c d : Nat) : Nat → Nat → Option Nat
  | 0, _ => none
  | fuel + 1, y => do
    let ySq ← checkedMul256 y y
    let denom ← checkedSub (2 * y + b) d
    let y2 ← checkedDiv (ySq + c) denom
    if y2 ≥ y then
      if y2 - y ≤ 1 then some y2 else yIter b c d fuel y2
    else
      if y - y2 ≤ 1 then some y2 else yIter b c d fuel y2

/-- The unknown-reserve solve for a fixed amplification coefficient:
given the other two (post-trade) reserves `x` and `u` and the target
invariant `d`, find the remaining reserve. -/
def computeYCore (ann x u d : Nat) : Option Nat := do
  let c1 ← checkedMul256 d d
  let c2 ← checkedDiv c1 (x * nCoins)
  let c3 ← checkedMul256 c2 d
  let c4 ← checkedDiv c3 (u * nCoins)
  let c5 ← checkedMul256 c4 d
  let c ← checkedDiv c5 (ann * nCoins)
  let dOverAnn ← checkedDiv d ann
  let b := dOverAnn + x + u
  yIter b c d solverIterations d

/-- Modelled from the spec: `compute_y` of the missing `curve.rs`
(`compute_new_reserve` of spec §4.1) — solves the invariant for the one
unknown reserve; the result must fit in a `Uint128`. -/
def StableSwap.computeY (s : StableSwap) (x u d : Nat) : Option Nat := do
  let amp ← s.computeAmpFactor
  let y ← computeYCore (amp * nCoins) x u d
  if y < uint128Bound then some y else none

/-- Result of a raw invariant swap (`SwapResult` of the missing
`curve.rs`): the updated offer and ask reserves and the gross amount
paid out. -/
structure SwapResult where
  newSourceAmount : Nat
  newDestinationAmount : Nat
  amountSwapped : Nat
  deriving DecidableEq, Repr

/-- Modelled from the spec: `swap_to` of the missing `curve.rs`
(`compute_swap` of spec §4.1) — computes `D`, substitutes the increased
offer reserve, resolves the new ask reserve, and pays out
`old_ask − new_ask − 1` (the conservative rounding floor). -/
def StableSwap.swapTo (s : StableSwap) (sourceAmount swapSourceAmount
    swapDestinationAmount unswappedAmount : Nat) : Option SwapResult := do
  let d0 ← s.computeD swapSourceAmount swapDestinationAmount unswappedAmount
  let newSource ← checkedAdd128 swapSourceAmount sourceAmount
  let y ← s.computeY newSource unswappedAmount d0
  let dy ← checkedSub swapDestinationAmount y
  let amountSwapped ← checkedSub dy 1
  some ⟨newSource, swapDestinationAmount - amountSwapped, amountSwapped⟩

/-- Modelled from the spec: the `Fee` type of the missing
`white_whale/src/fee.rs` — a ratio in `[0,1)` carried as a `Decimal`
numerator over `10^18`. -/
structure Fee where
  share : Nat
  deriving DecidableEq, Repr

/-- Modelled from the spec: `Fee::compute` — the fee amount is the gross
amount times the share, rounded down (spec §4.2). -/
def Fee.compute (f : Fee) (amount : Nat) : Nat :=
  amount * f.share / decimalFractional

/-- The pool's fee schedule (`terraswap::trio::PoolFee`): protocol, swap
and burn shares. -/
structure PoolFee where
  protocolFee : Fee
  swapFee : Fee
  burnFee : Fee
  deriving DecidableEq, Repr

/-- The transient result of a swap computation
(`SwapComputation` of spec §3). -/
structure SwapComputation where
  returnAmount : Nat
  spreadAmount : Nat
  swapFeeAmount : Nat
  protocolFeeAmount : Nat
  burnFeeAmount : Nat
  deriving DecidableEq, Repr

/-- Modelled from the spec: `compute_swap` of the missing `helpers.rs`
(spec §4.1/§4.2) — the invariant solve gives the gross ask amount; the
spread is the shortfall against the stable pool's one-to-one ideal rate,
clamped at zero; each fee is floored from the gross amount and the
return amount is the gross amount minus all fees, with checked
subtraction. -/
def computeSwap (offerPool askPool unswappedPool offerAmount : Nat)
    (poolFees : PoolFee) (invariant : StableSwap) :
    Except ContractError SwapComputation :=
  match invariant.swapTo offerAmount offerPool askPool unswappedPool with
  | none => .error .convergenceFailure
  | some result =>
    let swapAmount := result.amountSwapped
    let spreadAmount := offerAmount - swapAmount
    let swapFeeAmount := poolFees.swapFee.compute swapAmount
    let protocolFeeAmount := poolFees.protocolFee.compute swapAmount
    let burnFeeAmount := poolFees.burnFee.compute swapAmount
    match checkedSubE swapAmount swapFeeAmount with
    | .error e => .error e
    | .ok r1 =>
      match checkedSubE r1 protocolFeeAmount with
      | .error e => .error e
      | .ok r2 =>
        match checkedSubE r2 burnFeeAmount with
        | .error e => .error e
        | .ok returnAmount =>
          .ok ⟨returnAmount, spreadAmount, swapFeeAmount, protocolFeeAmount, burnFeeAmount⟩

/-- The transient result of a reverse-swap computation
(`OfferAmountComputation` of the missing `helpers.rs`). -/
structure OfferAmountComputation where
  offerAmount : Nat
  spreadAmount : Nat
  swapFeeAmount : Nat
  protocolFeeAmount : Nat
  burnFeeAmount : Nat
  deriving DecidableEq, Repr

/-- Ceiling division, used to round a reverse quote in the protocol's
favor (spec §4.1: the user is quoted at least the offer truly required). -/
def divCeil (a b : Nat) : Nat :=
  (a + b - 1) / b

/-- Modelled from the spec: `compute_offer_amount` of the missing
`helpers.rs` (spec §4.1) — the symmetric inverse of `compute_swap`:
scale the desired net ask amount back up through the fee shares, hold
`D` constant, substitute the decreased ask reserve, solve for the
increased offer reserve and add the `+1` rounding headroom; fees and
spread are reported against the gross ask amount. -/
def computeOfferAmount (offerPool askPool unswappedPool askAmount : Nat)
    (poolFees : PoolFee) (invariant : StableSwap) :
    Except ContractError OfferAmountComputation :=
  let feeShares := poolFees.protocolFee.share + poolFees.swapFee.share +
    poolFees.burnFee.share
  match checkedSubE decimalFractional feeShares with
  | .error e => .error e
  | .ok oneMinusFees =>
    if oneMinusFees = 0 then .error .overflow
    else
      let beforeCommission := divCeil (askAmount * decimalFractional) oneMinusFees
      match invariant.computeD offerPool askPool unswappedPool with
      | none => .error .convergenceFailure
      | some d0 =>
        match checkedSubE askPool beforeCommission with
        | .error e => .error e
        | .ok newAsk =>
          match invariant.computeY newAsk unswappedPool d0 with
          | none => .error .convergenceFailure
          | some newOffer =>
            match checkedSubE newOffer offerPool with
            | .error e => .error e
            | .ok diff =>
              let offerAmount := diff + 1
              let spreadAmount := offerAmount - beforeCommission
              let swapFeeAmount := poolFees.swapFee.compute beforeCommission
              let protocolFeeAmount := poolFees.protocolFee.compute beforeCommission
              let burnFeeAmount := poolFees.burnFee.compute beforeCommission
              .ok ⟨offerAmount, spreadAmount, swapFeeAmount, protocolFeeAmount,
                burnFeeAmount⟩

/-- The three queried pool assets, in configured order
(`trio_info.query_pools` result). -/
structure PoolsSnapshot where
  p0 : Asset
  p1 : Asset
  p2 : Asset
  deriving DecidableEq, Repr

/-- Indexing the snapshot like the source's `pools[i]` array. -/
def PoolsSnapshot.get (ps : PoolsSnapshot) : Fin 3 → Asset
  | 0 => ps.p0
  | 1 => ps.p1
  | 2 => ps.p2

/-- The per-asset decimals `trio_info.asset_decimals`. -/
structure AssetDecimals where
  d0 : Nat
  d1 : Nat
  d2 : Nat
  deriving DecidableEq, Repr

/-- Indexing the decimals like the source's `asset_decimals[i]`. -/
def AssetDecimals.get (ds : AssetDecimals) : Fin 3 → Nat
  | 0 => ds.d0
  | 1 => ds.d1
  | 2 => ds.d2

/-- One pool adjustment of the query paths (`queries.rs` lines 77-84):
subtract the asset's pending protocol fee from its reserve, with
checked subtraction. -/
def adjustOneQuery (collectedProtocolFees : List Asset) (pool : Asset) :
    Except ContractError Asset :=
  match checkedSubE pool.amount (getProtocolFeeForAsset collectedProtocolFees pool.getId) with
  | .error e => .error e
  | .ok amount => .ok ⟨pool.info, amount⟩

/-- One pool adjustment of the execute swap path (`commands.rs` lines
329-339): subtract the pending protocol fee, then additionally subtract
the offer amount when the pool's asset equals the offer asset. -/
def adjustOneSwap (collectedProtocolFees : List Asset) (offerAsset : Asset)
    (pool : Asset) : Except ContractError Asset :=
  match adjustOneQuery collectedProtocolFees pool with
  | .error e => .error e
  | .ok p =>
    if p.info = offerAsset.info then
      match checkedSubE p.amount offerAsset.amount with
      | .error e => .error e
      | .ok amount => .ok ⟨p.info, amount⟩
    else .ok p

/-- The query paths' reserve adjustment over all three pools. -/
def adjustPoolsQuery (collectedProtocolFees : List Asset) (ps : PoolsSnapshot) :
    Except ContractError PoolsSnapshot :=
  match adjustOneQuery collectedProtocolFees ps.p0 with
  | .error e => .error e
  | .ok q0 =>
    match adjustOneQuery collectedProtocolFees ps.p1 with
    | .error e => .error e
    | .ok q1 =>
      match adjustOneQuery collectedProtocolFees ps.p2 with
      | .error e => .error e
      | .ok q2 => .ok ⟨q0, q1, q2⟩

/-- The execute swap path's reserve adjustment over all three pools. -/
def adjustPoolsSwap (collectedProtocolFees : List Asset) (offerAsset : Asset)
    (ps : PoolsSnapshot) : Except ContractError PoolsSnapshot :=
  match adjustOneSwap collectedProtocolFees offerAsset ps.p0 with
  | .error e => .error e
  | .ok q0 =>
    match adjustOneSwap collectedProtocolFees offerAsset ps.p1 with
    | .error e => .error e
    | .ok q1 =>
      match adjustOneSwap collectedProtocolFees offerAsset ps.p2 with
      | .error e => .error e
      | .ok q2 => .ok ⟨q0, q1, q2⟩

/-- The offer/ask/unswapped role assignment, as pool indices.  This is
the `if/else` ladder of `commands.rs` lines 349-405 (repeated without
the decimals in `queries.rs` lines 91-129 and 190-228): the ask asset is
matched first, then the offer asset against the remaining two slots; any
other combination is an `AssetMismatch`. -/
def resolveIdx (ps : PoolsSnapshot) (offerInfo askInfo : AssetInfo) :
    Except ContractError (Fin 3 × Fin 3 × Fin 3) :=
  if askInfo = ps.p0.info then
    if offerInfo = ps.p1.info then .ok (1, 0, 2)
    else if offerInfo = ps.p2.info then .ok (2, 0, 1)
    else .error .assetMismatch
  else if askInfo = ps.p1.info then
    if offerInfo = ps.p0.info then .ok (0, 1, 2)
    else if offerInfo = ps.p2.info then .ok (2, 1, 0)
    else .error .assetMismatch
  else if askInfo = ps.p2.info then
    if offerInfo = ps.p0.info then .ok (0, 2, 1)
    else if offerInfo = ps.p1.info then .ok (1, 2, 0)
    else .error .assetMismatch
  else .error .assetMismatch

/-- Abstract outgoing instructions (spec §6): transfers, the two burn
kinds, LP mints and burns, and cw20 pull-transfers. -/
inductive Msg where
  | send (recipient : String) (info : AssetInfo) (amount : Nat)
  | bankBurn (denom : String) (amount : Nat)
  | tokenBurn (contractAddr : String) (amount : Nat)
  | mintLp (lpToken recipient : String) (amount : Nat)
  | transferFrom (tokenAddr owner recipient : String) (amount : Nat)
  | burnLp (lpToken : String) (amount : Nat)
  deriving DecidableEq, Repr

/-- Modelled from the spec: `Asset::into_msg` of the missing `asset.rs`
— a payment instruction for the asset (bank send for a native coin,
cw20 transfer for a token; both carried as `send`). -/
def Asset.intoMsg (a : Asset) (recipient : String) : Msg :=
  .send recipient a.info a.amount

/-- Modelled from the spec: `Asset::into_burn_msg` of the missing
`asset.rs` — a native-coin burn or a token-contract burn depending on
the asset kind (spec §4.2). -/
def Asset.intoBurnMsg (a : Asset) : Msg :=
  match a.info with
  | .nativeToken denom => .bankBurn denom a.amount
  | .token contractAddr => .tokenBurn contractAddr a.amount

/-- The pool configuration (`Config`): fee schedule, the constant
amplification factor used by the execute paths, the amplification
schedule used by the query paths, and the fee collector address. -/
structure Config where
  poolFees : PoolFee
  ampFactor : Nat
  initialAmp : Nat
  futureAmp : Nat
  initialAmpBlock : Nat
  futureAmpBlock : Nat
  feeCollectorAddr : String
  deriving Repr

/-- The amplification schedule the query paths build from the
configuration and the current block (`queries.rs` lines 132-138). -/
def scheduleInvariant (cfg : Config) (currentBlock : Nat) : StableSwap :=
  ⟨cfg.initialAmp, cfg.futureAmp, currentBlock, cfg.initialAmpBlock, cfg.futureAmpBlock⟩

/-- Modelled from the spec: the default and maximal slippage bounds of
the missing `helpers.rs` `assert_max_spread` (values not fixed by the
spec; one percent and fifty percent as `Decimal` numerators). -/
def defaultSlippage : Nat := 10 ^ 16

/-- Modelled from the spec: the maximal slippage the trader may request. -/
def maxAllowedSlippage : Nat := 5 * 10 ^ 17

/-- Modelled from the spec: `assert_max_spread` of the missing
`helpers.rs` — the slippage/belief-price assertion of spec §7: with a
belief price the realised return may not fall short of the implied
expected return by more than the allowed spread; without one the spread
share of the gross amount may not exceed it (the asset decimals are
threaded through from the ladder as in the source call site). -/
def assertMaxSpread (beliefPrice maxSpread : Option Nat)
    (offerAmount returnAmount spreadAmount : Nat)
    ( offerDecimal askDecimal : Nat) : Except ContractError Unit :=
  let ms := min (maxSpread.getD defaultSlippage) maxAllowedSlippage
  let _ := offerDecimal
  let _ := askDecimal
  match beliefPrice with
  | some bp =>
    let expectedReturn := offerAmount * decimalFractional / bp
    if returnAmount * decimalFractional < expectedReturn * (decimalFractional - ms)
    then .error .maxSpreadExceeded else .ok ()
  | none =>
    if spreadAmount * decimalFractional > ms * (returnAmount + spreadAmount)
    then .error .maxSpreadExceeded else .ok ()

/-- The observable result of the execute swap path: the role-resolved,
fee- and deposit-adjusted working pools, the swap computation reported
in the response attributes, the outgoing instructions, and the three
fee ledgers after the write-backs. -/
structure SwapOutcome where
  offerPool : Asset
  askPool : Asset
  unswappedPool : Asset
  comp : SwapComputation
  messages : List Msg
  collected : List Asset
  allTime : List Asset
  allTimeBurned : List Asset
  deriving DecidableEq, Repr

/-- The execute swap handler, `swap` of `commands.rs` lines 307-498:
adjust the queried pools (pending protocol fees, and the just-deposited
offer amount on the matching pool), resolve the offer/ask/unswapped
roles, run the swap computation with the constant amplification factor,
assert the spread limit, then emit the return transfer, record and emit
the burn fee, and record the protocol fee in the pending and all-time
ledgers under the ask asset. -/
def swapExec (ps : PoolsSnapshot) (decimals : AssetDecimals)
    (collected allTime allTimeBurned : List Asset) (cfg : Config)
    (sender : String) (offerAsset askAsset : Asset)
    (beliefPrice maxSpread : Option Nat) (toAddr : Option String) :
    Except ContractError SwapOutcome :=
  match adjustPoolsSwap collected offerAsset ps with
  | .error e => .error e
  | .ok pools =>
    match resolveIdx pools offerAsset.info askAsset.info with
    | .error e => .error e
    | .ok idx =>
      let offerPool := pools.get idx.1
      let askPool := pools.get idx.2.1
      let unswappedPool := pools.get idx.2.2
      let offerAmount := offerAsset.amount
      match computeSwap offerPool.amount askPool.amount unswappedPool.amount
          offerAmount cfg.poolFees (constantInvariant cfg.ampFactor) with
      | .error e => .error e
      | .ok comp =>
        match assertMaxSpread beliefPrice maxSpread offerAmount comp.returnAmount
            comp.spreadAmount (decimals.get idx.1) (decimals.get idx.2.1) with
        | .error e => .error e
        | .ok _ =>
          let receiver := toAddr.getD sender
          let returnMsgs := if comp.returnAmount = 0 then []
            else [Asset.intoMsg ⟨askPool.info, comp.returnAmount⟩ receiver]
          let burnAsset : Asset := ⟨askPool.info, comp.burnFeeAmount⟩
          match (if comp.burnFeeAmount = 0 then Except.ok allTimeBurned
            else storeFee allTimeBurned burnAsset.amount burnAsset.getId) with
          | .error e => .error e
          | .ok allTimeBurned2 =>
            let burnMsgs := if comp.burnFeeAmount = 0 then []
              else [burnAsset.intoBurnMsg]
            match storeFee collected comp.protocolFeeAmount askPool.getId with
            | .error e => .error e
            | .ok collected2 =>
              match storeFee allTime comp.protocolFeeAmount askPool.getId with
              | .error e => .error e
              | .ok allTime2 =>
                .ok ⟨offerPool, askPool, unswappedPool, comp,
                  returnMsgs ++ burnMsgs, collected2, allTime2, allTimeBurned2⟩

/-- The swap simulation query, `query_simulation` of `queries.rs` lines
61-156: adjust the pools by the pending protocol fees only, resolve the
roles with the same ladder, and run the swap computation with the
ramped amplification schedule. -/
def querySimulation (ps : PoolsSnapshot) (collected : List Asset) (cfg : Config)
    (currentBlock : Nat) (offerAsset askAsset : Asset) :
    Except ContractError SwapComputation :=
  match adjustPoolsQuery collected ps with
  | .error e => .error e
  | .ok pools =>
    match resolveIdx pools offerAsset.info askAsset.info with
    | .error e => .error e
    | .ok idx =>
      computeSwap (pools.get idx.1).amount (pools.get idx.2.1).amount
        (pools.get idx.2.2).amount offerAsset.amount cfg.poolFees
        (scheduleInvariant cfg currentBlock)

/-- The reverse simulation query, `query_reverse_simulation` of
`queries.rs` lines 160-255: the same pool adjustment and role ladder,
followed by the reverse quote. -/
def queryReverseSimulation (ps : PoolsSnapshot) (collected : List Asset)
    (cfg : Config) (currentBlock : Nat) (askAsset offerAsset : Asset) :
    Except ContractError OfferAmountComputation :=
  match adjustPoolsQuery collected ps with
  | .error e => .error e
  | .ok pools =>
    match resolveIdx pools offerAsset.info askAsset.info with
    | .error e => .error e
    | .ok idx =>
      computeOfferAmount (pools.get idx.1).amount (pools.get idx.2.1).amount
        (pools.get idx.2.2).amount askAsset.amount cfg.poolFees
        (scheduleInvariant cfg currentBlock)

/-- The pool info query response (`PoolResponse`). -/
structure PoolResponse where
  assets : List Asset
  totalShare : Nat
  deriving DecidableEq, Repr

/-- One per-asset subtraction of `query_pool` (`queries.rs` line 41):
the reserve minus its pending protocol fee — with the UNCHECKED
`Uint128` subtraction `asset.amount - protocol_fee`, which panics
(rather than returning a typed error) when the ledger exceeds the
reserve. -/
def queryPoolSub (collected : List Asset) (asset : Asset) :
    Except ContractError Asset :=
  let protocolFee := getProtocolFeeForAsset collected asset.getId
  if protocolFee ≤ asset.amount then .ok ⟨asset.info, asset.amount - protocolFee⟩
  else .error (.panicked "attempt to subtract with overflow")

/-- The pool query, `query_pool` of `queries.rs` lines 26-58: the three
per-slot subtractions in slot order, then the response. -/
def queryPool (ps : PoolsSnapshot) (collected : List Asset) (totalShare : Nat) :
    Except ContractError PoolResponse :=
  match queryPoolSub collected ps.p0 with
  | .error e => .error e
  | .ok a0 =>
    match queryPoolSub collected ps.p1 with
    | .error e => .error e
    | .ok a1 =>
      match queryPoolSub collected ps.p2 with
      | .error e => .error e
      | .ok a2 => .ok ⟨[a0, a1, a2], totalShare⟩

/-- Modelled from the spec: `MINIMUM_LIQUIDITY_AMOUNT` of the missing
`terraswap/src/asset.rs` — the per-asset share amount permanently locked
on the first deposit (spec §4.1; the numeric value is not fixed by the
spec). -/
def minimumLiquidityAmount : Nat := 1000

/-- Modelled from the spec: `compute_mint_amount_for_deposit` of the
missing `curve.rs` (spec §4.1) — `D` before and after the deposit and
the proportional share `total_share·(D_after − D_before)/D_before`;
undefined when the invariant does not grow or a value leaves its type. -/
def StableSwap.computeMintAmountForDeposit (s : StableSwap)
    (depositA depositB depositC swapA swapB swapC poolTokenSupply : Nat) :
    Option Nat := do
  let d0 ← s.computeD swapA swapB swapC
  let newA ← checkedAdd128 swapA depositA
  let newB ← checkedAdd128 swapB depositB
  let newC ← checkedAdd128 swapC depositC
  let d1 ← s.computeD newA newB newC
  if d1 ≤ d0 then none
  else do
    let diff ← checkedSub d1 d0
    let m ← checkedMul256 poolTokenSupply diff
    let amount ← checkedDiv m d0
    if amount < uint128Bound then some amount else none

/-- Modelled from the spec: `assert_slippage_tolerance` of the missing
`helpers.rs` (spec §4.4) — with no tolerance the assertion is vacuous;
with one, each pairwise deposit ratio, discounted by the tolerance, may
not exceed the corresponding pool ratio (exact rational comparison). -/
def assertSlippageTolerance (slippageTolerance : Option Nat)
    (deposits : Nat × Nat × Nat) (pools : PoolsSnapshot) :
    Except ContractError Unit :=
  match slippageTolerance with
  | none => .ok ()
  | some tol =>
    if decimalFractional < tol then .error .overflow
    else
      let oneMinusTol := decimalFractional - tol
      let bad (dx dy px py : Nat) : Bool :=
        dx * oneMinusTol * py > px * decimalFractional * dy
      if bad deposits.1 deposits.2.1 pools.p0.amount pools.p1.amount ∨
         bad deposits.2.1 deposits.2.2 pools.p1.amount pools.p2.amount ∨
         bad deposits.2.2 deposits.1 pools.p2.amount pools.p0.amount
      then .error .maxSlippageAssertion
      else .ok ()

/-- Extract a declared deposit for a pool slot (`commands.rs` lines
126-142): the first provided asset matching the slot's asset info;
a missing match is the `expect("Wrong asset info is given")` panic. -/
def findDeposit (assets : List Asset) (info : AssetInfo) :
    Except ContractError Nat :=
  match assets.find? (fun a => a.info = info) with
  | some a => .ok a.amount
  | none => .error (.panicked "Wrong asset info is given")

/-- The cw20 pull-transfer instructions of `provide_liquidity`
(`commands.rs` lines 149-160): one `TransferFrom` per token-contract
slot, in slot order. -/
def pullMsgs (ps : PoolsSnapshot) (deposits : Nat × Nat × Nat)
    (sender contractAddr : String) : List Msg :=
  let one : Asset → Nat → List Msg := fun pool dep =>
    match pool.info with
    | .token tokenAddr => [.transferFrom tokenAddr sender contractAddr dep]
    | .nativeToken _ => []
  one ps.p0 deposits.1 ++ one ps.p1 deposits.2.1 ++ one ps.p2 deposits.2.2

/-- The native-deposit correction of `provide_liquidity` (`commands.rs`
lines 161-165): a native slot's just-credited deposit is subtracted
from its queried reserve; token slots are pulled later and left as is. -/
def subtractNativeDeposit (pool : Asset) (deposit : Nat) :
    Except ContractError Asset :=
  match pool.info with
  | .token _ => .ok pool
  | .nativeToken _ => do
    let amount ← checkedSubE pool.amount deposit
    .ok ⟨pool.info, amount⟩

/-- The liquidity provision handler, `provide_liquidity` of
`commands.rs` lines 103-234 (less the entrypoint concerns): extract the
three deposits, reject zero deposits, correct native reserves, subtract
pending protocol fees, assert the slippage tolerance, then mint either
the first-deposit shares (locking `MINIMUM_LIQUIDITY_AMOUNT·3` to the
pool itself) or the proportional shares.  Returns the instructions and
the share amount minted to the receiver. -/
def provideLiquidity (ps : PoolsSnapshot) (collected : List Asset)
    (assets : List Asset) (totalShare : Nat) (cfg : Config)
    (slippageTolerance : Option Nat) (lpToken contractAddr sender : String)
    (receiver : Option String) : Except ContractError (List Msg × Nat) :=
  match findDeposit assets ps.p0.info with
  | .error e => .error e
  | .ok dep0 =>
    match findDeposit assets ps.p1.info with
    | .error e => .error e
    | .ok dep1 =>
      match findDeposit assets ps.p2.info with
      | .error e => .error e
      | .ok dep2 =>
        if dep0 = 0 ∨ dep1 = 0 ∨ dep2 = 0 then .error .invalidZeroAmount
        else
          let msgs0 := pullMsgs ps (dep0, dep1, dep2) sender contractAddr
          match subtractNativeDeposit ps.p0 dep0 with
          | .error e => .error e
          | .ok n0 =>
            match subtractNativeDeposit ps.p1 dep1 with
            | .error e => .error e
            | .ok n1 =>
              match subtractNativeDeposit ps.p2 dep2 with
              | .error e => .error e
              | .ok n2 =>
                match adjustPoolsQuery collected ⟨n0, n1, n2⟩ with
                | .error e => .error e
                | .ok pools =>
                  match assertSlippageTolerance slippageTolerance
                      (dep0, dep1, dep2) pools with
                  | .error e => .error e
                  | .ok _ =>
                    let invariant := constantInvariant cfg.ampFactor
                    if totalShare = 0 then
                      let minLpTokenAmount := minimumLiquidityAmount * 3
                      match invariant.computeD dep0 dep1 dep2 with
                      | none => .error (.panicked "compute_d failed")
                      | some d =>
                        if d < uint128Bound then
                          match checkedSub d minLpTokenAmount with
                          | none =>
                            .error (.invalidInitialLiquidityAmount minLpTokenAmount)
                          | some share =>
                            let msgs1 := msgs0 ++
                              [Msg.mintLp lpToken contractAddr minLpTokenAmount]
                            let receiver2 := receiver.getD sender
                            .ok (msgs1 ++ [Msg.mintLp lpToken receiver2 share], share)
                        else .error (.panicked "conversion to u128 failed")
                    else
                      match invariant.computeMintAmountForDeposit dep0 dep1 dep2
                          pools.p0.amount pools.p1.amount pools.p2.amount totalShare with
                      | none => .error (.panicked "compute_mint_amount_for_deposit failed")
                      | some share =>
                        let receiver2 := receiver.getD sender
                        .ok (msgs0 ++ [Msg.mintLp lpToken receiver2 share], share)

/-- The `Decimal::from_ratio(amount, total_share)` share ratio of
`withdraw_liquidity`: the floored `10^18`-scaled ratio; a zero supply or
a ratio that does not fit the `Decimal` type panics. -/
def decimalFromRatio (numerator denominator : Nat) : Except ContractError Nat :=
  if denominator = 0 then .error (.panicked "Denominator must not be zero")
  else
    let atomics := numerator * decimalFractional / denominator
    if atomics < uint128Bound then .ok atomics
    else .error (.panicked "multiplication overflow")

/-- The `Uint128 * Decimal` multiplication used for the refunds:
full-precision product floored back to integer units, panicking when the
result leaves `Uint128`. -/
def mulRatioDecimal (amount ratioAtomics : Nat) : Except ContractError Nat :=
  let r := amount * ratioAtomics / decimalFractional
  if r < uint128Bound then .ok r
  else .error (.panicked "multiplication overflow")

/-- One per-asset refund of `withdraw_liquidity` (`commands.rs` lines
258-270): the reserve minus its pending protocol fee (checked), scaled
by the burned share ratio. -/
def refundAsset (collected : List Asset) (shareRatio : Nat) (poolAsset : Asset) :
    Except ContractError Asset :=
  match checkedSubE poolAsset.amount
      (getProtocolFeeForAsset collected poolAsset.getId) with
  | .error e => .error e
  | .ok refundAmount =>
    match mulRatioDecimal refundAmount shareRatio with
    | .error e => .error e
    | .ok r => .ok ⟨poolAsset.info, r⟩

/-- The liquidity withdrawal handler, `withdraw_liquidity` of
`commands.rs` lines 238-303: the burned share ratio, the per-asset
refund of (reserve − pending protocol fee) scaled by the ratio with the
per-asset subtraction checked, the three refund transfers and the LP
burn instruction. -/
def withdrawLiquidity (ps : PoolsSnapshot) (collected : List Asset)
    (amount totalShare : Nat) (lpToken sender : String) :
    Except ContractError (List Asset × List Msg) :=
  match decimalFromRatio amount totalShare with
  | .error e => .error e
  | .ok shareRatio =>
    match refundAsset collected shareRatio ps.p0 with
    | .error e => .error e
    | .ok r0 =>
      match refundAsset collected shareRatio ps.p1 with
      | .error e => .error e
      | .ok r1 =>
        match refundAsset collected shareRatio ps.p2 with
        | .error e => .error e
        | .ok r2 =>
          .ok ([r0, r1, r2],
            [r0.intoMsg sender, r1.intoMsg sender, r2.intoMsg sender,
             Msg.burnLp lpToken amount])

/-- The fee collection sweep, `collect_protocol_fees` of `commands.rs`
lines 544-579: read the pending ledger, reset every entry to zero
(keeping the asset infos), and emit one transfer to the fee collector
per nonzero entry.  The all-time ledgers are not touched. -/
def collectProtocolFees (collected : List Asset) (feeCollectorAddr : String) :
    Except ContractError (List Asset × List Msg) :=
  match collected with
  | [f0, f1, f2] =>
    let zeroed : List Asset := [⟨f0.info, 0⟩, ⟨f1.info, 0⟩, ⟨f2.info, 0⟩]
    let msgs := ([f0, f1, f2].filter (fun f => f.amount ≠ 0)).map
      (fun f => f.intoMsg feeCollectorAddr)
    .ok (zeroed, msgs)
  | _ => .error (.panicked "index out of bounds")

/-- The core-owned persistent state (spec §3): the pending
protocol-fee ledger and the two all-time ledgers. -/
structure LedgerState where
  collected : List Asset
  allTime : List Asset
  allTimeBurned : List Asset
  deriving DecidableEq, Repr

/-- The state-mutating operations of the contract, with the external
inputs (reserve snapshot, configuration, call arguments) each reads. -/
inductive Op where
  | swapOp (ps : PoolsSnapshot) (decimals : AssetDecimals) (cfg : Config)
      (sender : String) (offerAsset askAsset : Asset)
      (beliefPrice maxSpread : Option Nat) (toAddr : Option String)
  | collectOp (cfg : Config)
  | provideOp (ps : PoolsSnapshot) (assets : List Asset) (totalShare : Nat)
      (cfg : Config) (slippageTolerance : Option Nat)
      (lpToken contractAddr sender : String) (receiver : Option String)
  | withdrawOp (ps : PoolsSnapshot) (amount totalShare : Nat)
      (lpToken sender : String)

/-- One transactional invocation (spec §5): the operation either fails,
leaving the ledgers untouched, or commits its ledger writes and
instruction list atomically. -/
def applyOp (op : Op) (s : LedgerState) :
    Except ContractError (LedgerState × List Msg) :=
  match op with
  | .swapOp ps decimals cfg sender offerAsset askAsset beliefPrice maxSpread toAddr =>
    match swapExec ps decimals s.collected s.allTime s.allTimeBurned cfg
        sender offerAsset askAsset beliefPrice maxSpread toAddr with
    | .error e => .error e
    | .ok o => .ok (⟨o.collected, o.allTime, o.allTimeBurned⟩, o.messages)
  | .collectOp cfg =>
    match collectProtocolFees s.collected cfg.feeCollectorAddr with
    | .error e => .error e
    | .ok r => .ok (⟨r.1, s.allTime, s.allTimeBurned⟩, r.2)
  | .provideOp ps assets totalShare cfg slippageTolerance lpToken contractAddr sender receiver =>
    match provideLiquidity ps s.collected assets totalShare cfg
        slippageTolerance lpToken contractAddr sender receiver with
    | .error e => .error e
    | .ok r => .ok (s, r.1)
  | .withdrawOp ps amount totalShare lpToken sender =>
    match withdrawLiquidity ps s.collected amount totalShare lpToken sender with
    | .error e => .error e
    | .ok r => .ok (s, r.2)

/-! ### Ledger lemmas -/

/-- The identifier of an asset info (the value `get_id` projects). -/
def AssetInfo.assetId : AssetInfo → String
  | .nativeToken denom => denom
  | .token contractAddr => contractAddr

theorem Asset.getId_eq (a : Asset) : a.getId = a.info.assetId := by
  cases a with
  | mk info amount => cases info <;> rfl

theorem getProtocolFeeForAsset_nil (assetId : String) :
    getProtocolFeeForAsset [] assetId = 0 := rfl

theorem getProtocolFeeForAsset_cons (a : Asset) (rest : List Asset) (assetId : String) :
    getProtocolFeeForAsset (a :: rest) assetId =
      if a.info.assetId = assetId then a.amount
      else getProtocolFeeForAsset rest assetId := by
  by_cases h : a.info.assetId = assetId <;>
    simp [getProtocolFeeForAsset, List.find?_cons, Asset.getId_eq, h]

theorem containsId_cons (a : Asset) (rest : List Asset) (assetId : String) :
    (containsId (a :: rest) assetId = true) ↔
      (a.info.assetId = assetId ∨ containsId rest assetId = true) := by
  simp [containsId, Asset.getId_eq]

theorem checkedAddE_ok (a b r : Nat) (h : checkedAddE a b = .ok r) :
    r = a + b := by
  unfold checkedAddE at h
  split at h
  · exact (Except.ok.inj h).symm
  · cases h

theorem storeFee_ok_cases (fee : Nat) (assetId : String) (ledger : List Asset) :
    ∀ ledger2, storeFee ledger fee assetId = .ok ledger2 →
      ledgerAmount ledger2 assetId =
        ledgerAmount ledger assetId + (if containsId ledger assetId then fee else 0) ∧
      (∀ otherId, otherId ≠ assetId →
        ledgerAmount ledger2 otherId = ledgerAmount ledger otherId) ∧
      (∀ anyId, ledgerAmount ledger anyId ≤ ledgerAmount ledger2 anyId) := by
  induction ledger with
  | nil =>
    intro ledger2 h
    simp [storeFee] at h
    subst h
    simp [ledgerAmount, getProtocolFeeForAsset_nil, containsId]
  | cons a rest ih =>
    intro ledger2 h
    rw [storeFee] at h
    cases hrest : storeFee rest fee assetId with
    | error e => rw [hrest] at h; exact absurd h (by simp)
    | ok rest2 =>
      rw [hrest] at h
      dsimp only at h
      obtain ⟨h1, h2, h3⟩ := ih rest2 hrest
      simp only [ledgerAmount] at h1 h2 h3 ⊢
      by_cases hid : a.getId = assetId
      · rw [if_pos hid] at h
        rw [Asset.getId_eq] at hid
        cases hadd : checkedAddE a.amount fee with
        | error e => rw [hadd] at h; exact absurd h (by simp)
        | ok amount2 =>
          rw [hadd] at h
          dsimp only at h
          have hamt := checkedAddE_ok _ _ _ hadd
          cases h
          subst hamt
          refine ⟨?_, ?_, ?_⟩
          · simp [getProtocolFeeForAsset_cons, containsId_cons, hid]
          · intro otherId hne
            have hne2 : a.info.assetId ≠ otherId := by
              rw [hid]; exact fun hh => hne hh.symm
            simp [getProtocolFeeForAsset_cons, hne2]
            exact h2 otherId hne
          · intro anyId
            by_cases hany : a.info.assetId = anyId
            · simp [getProtocolFeeForAsset_cons, hany]
            · simp [getProtocolFeeForAsset_cons, hany]
              exact h3 anyId
      · rw [if_neg hid] at h
        rw [Asset.getId_eq] at hid
        cases h
        refine ⟨?_, ?_, ?_⟩
        · simp [getProtocolFeeForAsset_cons, containsId_cons, hid]
          exact h1
        · intro otherId hne
          by_cases hany : a.info.assetId = otherId
          · simp [getProtocolFeeForAsset_cons, hany]
          · simp [getProtocolFeeForAsset_cons, hany]
            exact h2 otherId hne
        · intro anyId
          by_cases hany : a.info.assetId = anyId
          · simp [getProtocolFeeForAsset_cons, hany]
          · simp [getProtocolFeeForAsset_cons, hany]
            exact h3 anyId

/-! ### Reserve adjustment lemmas -/

theorem adjustOneQuery_eq (collected : List Asset) (pool : Asset) :
    adjustOneQuery collected pool =
      (if getProtocolFeeForAsset collected pool.getId ≤ pool.amount then
        Except.ok ⟨pool.info, pool.amount - getProtocolFeeForAsset collected pool.getId⟩
      else Except.error ContractError.overflow) := by
  unfold adjustOneQuery checkedSubE
  by_cases hf : getProtocolFeeForAsset collected pool.getId ≤ pool.amount
  · rw [if_pos hf, if_pos hf]
  · rw [if_neg hf, if_neg hf]

theorem adjustOneSwap_eq (collected : List Asset) (offerAsset pool : Asset) :
    adjustOneSwap collected offerAsset pool =
      (if getProtocolFeeForAsset collected pool.getId ≤ pool.amount then
        (if pool.info = offerAsset.info then
          (if offerAsset.amount ≤ pool.amount - getProtocolFeeForAsset collected pool.getId then
            Except.ok ⟨pool.info,
              pool.amount - getProtocolFeeForAsset collected pool.getId - offerAsset.amount⟩
          else Except.error ContractError.overflow)
        else Except.ok ⟨pool.info, pool.amount - getProtocolFeeForAsset collected pool.getId⟩)
      else Except.error ContractError.overflow) := by
  unfold adjustOneSwap
  rw [adjustOneQuery_eq]
  by_cases hf : getProtocolFeeForAsset collected pool.getId ≤ pool.amount
  · rw [if_pos hf, if_pos hf]
    dsimp only
    by_cases hi : pool.info = offerAsset.info
    · rw [if_pos hi, if_pos hi]
      unfold checkedSubE
      by_cases hs : offerAsset.amount ≤
          pool.amount - getProtocolFeeForAsset collected pool.getId
      · rw [if_pos hs, if_pos hs]
      · rw [if_neg hs, if_neg hs]
    · rw [if_neg hi, if_neg hi]
  · rw [if_neg hf, if_neg hf]

theorem adjustPoolsQuery_ok_iff (collected : List Asset) (ps qs : PoolsSnapshot) :
    adjustPoolsQuery collected ps = .ok qs ↔
      ((∀ i : Fin 3, getProtocolFeeForAsset collected ((ps.get i).getId) ≤ (ps.get i).amount) ∧
       (∀ i : Fin 3, qs.get i = ⟨(ps.get i).info,
          (ps.get i).amount - getProtocolFeeForAsset collected ((ps.get i).getId)⟩)) := by
  unfold adjustPoolsQuery
  rw [adjustOneQuery_eq, adjustOneQuery_eq, adjustOneQuery_eq]
  by_cases h0 : getProtocolFeeForAsset collected ps.p0.getId ≤ ps.p0.amount
  · rw [if_pos h0]
    by_cases h1 : getProtocolFeeForAsset collected ps.p1.getId ≤ ps.p1.amount
    · rw [if_pos h1]
      by_cases h2 : getProtocolFeeForAsset collected ps.p2.getId ≤ ps.p2.amount
      · rw [if_pos h2]
        dsimp only
        constructor
        · intro h
          cases h
          refine ⟨?_, ?_⟩ <;> intro i <;> fin_cases i <;>
            first
              | exact h0
              | exact h1
              | exact h2
              | rfl
        · rintro ⟨_, heq⟩
          have e0 := heq 0; have e1 := heq 1; have e2 := heq 2
          simp only [PoolsSnapshot.get] at e0 e1 e2
          cases qs
          simp only at e0 e1 e2
          rw [e0, e1, e2]
      · rw [if_neg h2]
        dsimp only
        constructor
        · intro h; cases h
        · rintro ⟨hle, _⟩; exact absurd (hle 2) h2
    · rw [if_neg h1]
      dsimp only
      constructor
      · intro h; cases h
      · rintro ⟨hle, _⟩; exact absurd (hle 1) h1
  · rw [if_neg h0]
    dsimp only
    constructor
    · intro h; cases h
    · rintro ⟨hle, _⟩; exact absurd (hle 0) h0

theorem adjustPoolsQuery_err (collected : List Asset) (ps : PoolsSnapshot)
    (e : ContractError) (h : adjustPoolsQuery collected ps = .error e) :
    e = .overflow := by
  unfold adjustPoolsQuery at h
  rw [adjustOneQuery_eq, adjustOneQuery_eq, adjustOneQuery_eq] at h
  by_cases h0 : getProtocolFeeForAsset collected ps.p0.getId ≤ ps.p0.amount
  · rw [if_pos h0] at h
    by_cases h1 : getProtocolFeeForAsset collected ps.p1.getId ≤ ps.p1.amount
    · rw [if_pos h1] at h
      by_cases h2 : getProtocolFeeForAsset collected ps.p2.getId ≤ ps.p2.amount
      · rw [if_pos h2] at h; cases h
      · rw [if_neg h2] at h; cases h; rfl
    · rw [if_neg h1] at h; cases h; rfl
  · rw [if_neg h0] at h; cases h; rfl

theorem adjustPoolsSwap_ok_slots (collected : List Asset) (offerAsset : Asset)
    (ps qs : PoolsSnapshot) (h : adjustPoolsSwap collected offerAsset ps = .ok qs) :
    ∀ i : Fin 3,
      getProtocolFeeForAsset collected ((ps.get i).getId) ≤ (ps.get i).amount ∧
      (qs.get i).info = (ps.get i).info ∧
      (qs.get i).amount + getProtocolFeeForAsset collected ((ps.get i).getId) +
        (if (ps.get i).info = offerAsset.info then offerAsset.amount else 0) =
        (ps.get i).amount := by
  have one : ∀ p q : Asset, adjustOneSwap collected offerAsset p = .ok q →
      getProtocolFeeForAsset collected p.getId ≤ p.amount ∧
      q.info = p.info ∧
      q.amount + getProtocolFeeForAsset collected p.getId +
        (if p.info = offerAsset.info then offerAsset.amount else 0) = p.amount := by
    intro p q hq
    rw [adjustOneSwap_eq] at hq
    by_cases hf : getProtocolFeeForAsset collected p.getId ≤ p.amount
    · rw [if_pos hf] at hq
      by_cases hi : p.info = offerAsset.info
      · rw [if_pos hi] at hq
        by_cases hs : offerAsset.amount ≤
            p.amount - getProtocolFeeForAsset collected p.getId
        · rw [if_pos hs] at hq
          cases hq
          refine ⟨hf, rfl, ?_⟩
          rw [if_pos hi]
          dsimp only
          omega
        · rw [if_neg hs] at hq; cases hq
      · rw [if_neg hi] at hq
        cases hq
        refine ⟨hf, rfl, ?_⟩
        rw [if_neg hi]
        dsimp only
        omega
    · rw [if_neg hf] at hq; cases hq
  unfold adjustPoolsSwap at h
  cases h0 : adjustOneSwap collected offerAsset ps.p0 with
  | error e => rw [h0] at h; cases h
  | ok q0 =>
    rw [h0] at h
    cases h1 : adjustOneSwap collected offerAsset ps.p1 with
    | error e => rw [h1] at h; cases h
    | ok q1 =>
      rw [h1] at h
      cases h2 : adjustOneSwap collected offerAsset ps.p2 with
      | error e => rw [h2] at h; cases h
      | ok q2 =>
        rw [h2] at h
        cases h
        intro i
        fin_cases i
        · exact one ps.p0 q0 h0
        · exact one ps.p1 q1 h1
        · exact one ps.p2 q2 h2

theorem adjustPoolsSwap_err (collected : List Asset) (offerAsset : Asset)
    (ps : PoolsSnapshot) (e : ContractError)
    (h : adjustPoolsSwap collected offerAsset ps = .error e) : e = .overflow := by
  have one : ∀ p e2, adjustOneSwap collected offerAsset p = .error e2 →
      e2 = ContractError.overflow := by
    intro p e2 hq
    rw [adjustOneSwap_eq] at hq
    by_cases hf : getProtocolFeeForAsset collected p.getId ≤ p.amount
    · rw [if_pos hf] at hq
      by_cases hi : p.info = offerAsset.info
      · rw [if_pos hi] at hq
        by_cases hs : offerAsset.amount ≤
            p.amount - getProtocolFeeForAsset collected p.getId
        · rw [if_pos hs] at hq; cases hq
        · rw [if_neg hs] at hq; cases hq; rfl
      · rw [if_neg hi] at hq; cases hq
    · rw [if_neg hf] at hq; cases hq; rfl
  unfold adjustPoolsSwap at h
  cases h0 : adjustOneSwap collected offerAsset ps.p0 with
  | error e0 => rw [h0] at h; cases h; exact one ps.p0 _ h0
  | ok q0 =>
    rw [h0] at h
    cases h1 : adjustOneSwap collected offerAsset ps.p1 with
    | error e1 => rw [h1] at h; cases h; exact one ps.p1 _ h1
    | ok q1 =>
      rw [h1] at h
      cases h2 : adjustOneSwap collected offerAsset ps.p2 with
      | error e2 => rw [h2] at h; cases h; exact one ps.p2 _ h2
      | ok q2 => rw [h2] at h; cases h

/-- The platform convention of spec §4.3: before the execute handler
runs, the just-deposited offer amount is already credited to the
contract's balance of the matching asset. -/
def creditOne (offerAsset pool : Asset) : Asset :=
  if pool.info = offerAsset.info then ⟨pool.info, pool.amount + offerAsset.amount⟩
  else pool

/-- The reserve snapshot the execute path queries: the logical pre-swap
snapshot with the offer deposit credited to the matching slot. -/
def creditOffer (offerAsset : Asset) (ps : PoolsSnapshot) : PoolsSnapshot :=
  ⟨creditOne offerAsset ps.p0, creditOne offerAsset ps.p1, creditOne offerAsset ps.p2⟩

theorem adjustOneSwap_credit (collected : List Asset) (offerAsset pool q : Asset)
    (h : adjustOneSwap collected offerAsset (creditOne offerAsset pool) = .ok q) :
    adjustOneQuery collected pool = .ok q := by
  rw [adjustOneSwap_eq] at h
  rw [adjustOneQuery_eq]
  by_cases hi : pool.info = offerAsset.info
  · have hc : creditOne offerAsset pool = ⟨pool.info, pool.amount + offerAsset.amount⟩ := by
      unfold creditOne; rw [if_pos hi]
    rw [hc] at h
    have hid : (Asset.mk pool.info (pool.amount + offerAsset.amount)).getId = pool.getId := by
      rw [Asset.getId_eq, Asset.getId_eq]
    rw [hid] at h
    dsimp only at h
    by_cases hf : getProtocolFeeForAsset collected pool.getId ≤
        pool.amount + offerAsset.amount
    · rw [if_pos hf, if_pos hi] at h
      by_cases hs : offerAsset.amount ≤
          pool.amount + offerAsset.amount - getProtocolFeeForAsset collected pool.getId
      · rw [if_pos hs] at h
        cases h
        have hfr : getProtocolFeeForAsset collected pool.getId ≤ pool.amount := by omega
        rw [if_pos hfr]
        have : pool.amount + offerAsset.amount -
            getProtocolFeeForAsset collected pool.getId - offerAsset.amount =
            pool.amount - getProtocolFeeForAsset collected pool.getId := by omega
        rw [this]
      · rw [if_neg hs] at h; cases h
    · rw [if_neg hf] at h; cases h
  · have hc : creditOne offerAsset pool = pool := by
      unfold creditOne; rw [if_neg hi]
    rw [hc] at h
    by_cases hf : getProtocolFeeForAsset collected pool.getId ≤ pool.amount
    · rw [if_pos hf, if_neg hi] at h
      rw [if_pos hf]
      exact h
    · rw [if_neg hf] at h; cases h

theorem adjustPoolsSwap_credit (collected : List Asset) (offerAsset : Asset)
    (ps qs : PoolsSnapshot)
    (h : adjustPoolsSwap collected offerAsset (creditOffer offerAsset ps) = .ok qs) :
    adjustPoolsQuery collected ps = .ok qs := by
  unfold adjustPoolsSwap at h
  unfold adjustPoolsQuery
  unfold creditOffer at h
  dsimp only at h
  cases h0 : adjustOneSwap collected offerAsset (creditOne offerAsset ps.p0) with
  | error e => rw [h0] at h; cases h
  | ok q0 =>
    rw [h0] at h
    rw [adjustOneSwap_credit collected offerAsset ps.p0 q0 h0]
    cases h1 : adjustOneSwap collected offerAsset (creditOne offerAsset ps.p1) with
    | error e => rw [h1] at h; cases h
    | ok q1 =>
      rw [h1] at h
      rw [adjustOneSwap_credit collected offerAsset ps.p1 q1 h1]
      cases h2 : adjustOneSwap collected offerAsset (creditOne offerAsset ps.p2) with
      | error e => rw [h2] at h; cases h
      | ok q2 =>
        rw [h2] at h
        rw [adjustOneSwap_credit collected offerAsset ps.p2 q2 h2]
        exact h

/-! ### Amplification congruence lemmas -/

theorem computeAmpFactor_constant (amp : Nat) :
    (constantInvariant amp).computeAmpFactor = some amp := rfl

theorem computeAmpFactor_flat (s : StableSwap) (amp : Nat)
    (h1 : s.initialAmp = amp) (h2 : s.futureAmp = amp)
    (h3 : s.startRampTs < s.stopRampTs ∨ s.stopRampTs ≤ s.currentTs) :
    s.computeAmpFactor = some amp := by
  unfold StableSwap.computeAmpFactor
  by_cases hc : s.currentTs < s.stopRampTs
  · rw [if_pos hc]
    have hne : ¬s.stopRampTs = s.startRampTs := by omega
    rw [if_neg hne, if_pos (by rw [h1, h2])]
    rw [h1, h2]
    simp
  · rw [if_neg hc, h2]

theorem computeD_congr (s1 s2 : StableSwap)
    (h : s1.computeAmpFactor = s2.computeAmpFactor) :
    ∀ a b c, s1.computeD a b c = s2.computeD a b c := by
  intro a b c
  unfold StableSwap.computeD
  rw [h]

theorem computeY_congr (s1 s2 : StableSwap)
    (h : s1.computeAmpFactor = s2.computeAmpFactor) :
    ∀ x u d, s1.computeY x u d = s2.computeY x u d := by
  intro x u d
  unfold StableSwap.computeY
  rw [h]

theorem swapTo_congr (s1 s2 : StableSwap)
    (h : s1.computeAmpFactor = s2.computeAmpFactor) :
    ∀ sa ssa sda ua, s1.swapTo sa ssa sda ua = s2.swapTo sa ssa sda ua := by
  intro sa ssa sda ua
  unfold StableSwap.swapTo
  simp only [computeD_congr s1 s2 h, computeY_congr s1 s2 h]

theorem computeSwap_congr (s1 s2 : StableSwap)
    (h : s1.computeAmpFactor = s2.computeAmpFactor)
    (offerPool askPool unswappedPool offerAmount : Nat) (poolFees : PoolFee) :
    computeSwap offerPool askPool unswappedPool offerAmount poolFees s1 =
      computeSwap offerPool askPool unswappedPool offerAmount poolFees s2 := by
  unfold computeSwap
  simp only [swapTo_congr s1 s2 h]

/-! ### Role resolution lemmas -/

theorem resolveIdx_ok_props (ps : PoolsSnapshot) (offerInfo askInfo : AssetInfo)
    (oi ai ui : Fin 3) (h : resolveIdx ps offerInfo askInfo = .ok (oi, ai, ui)) :
    (ps.get oi).info = offerInfo ∧ (ps.get ai).info = askInfo ∧ oi ≠ ai := by
  unfold resolveIdx at h
  split_ifs at h <;> cases h <;>
    exact ⟨by simp [PoolsSnapshot.get, *], by simp [PoolsSnapshot.get, *], by decide⟩

theorem resolveIdx_mismatch (ps : PoolsSnapshot) (offerInfo askInfo : AssetInfo)
    (hd01 : ps.p0.info ≠ ps.p1.info) (hd02 : ps.p0.info ≠ ps.p2.info)
    (hd12 : ps.p1.info ≠ ps.p2.info)
    (hbad : offerInfo = askInfo ∨
      (offerInfo ≠ ps.p0.info ∧ offerInfo ≠ ps.p1.info ∧ offerInfo ≠ ps.p2.info) ∨
      (askInfo ≠ ps.p0.info ∧ askInfo ≠ ps.p1.info ∧ askInfo ≠ ps.p2.info)) :
    resolveIdx ps offerInfo askInfo = .error .assetMismatch := by
  unfold resolveIdx
  split_ifs <;>
    first
      | rfl
      | (exfalso;
         rcases hbad with hb | ⟨hb0, hb1, hb2⟩ | ⟨hb0, hb1, hb2⟩ <;> simp_all)

/-! ### Execute swap inversion -/

theorem swapExec_ok_inv (ps : PoolsSnapshot) (decimals : AssetDecimals)
    (collected allTime allTimeBurned : List Asset) (cfg : Config)
    (sender : String) (offerAsset askAsset : Asset)
    (beliefPrice maxSpread : Option Nat) (toAddr : Option String) (o : SwapOutcome)
    (h : swapExec ps decimals collected allTime allTimeBurned cfg sender
      offerAsset askAsset beliefPrice maxSpread toAddr = .ok o) :
    ∃ pools : PoolsSnapshot, ∃ oi ai ui : Fin 3,
      adjustPoolsSwap collected offerAsset ps = .ok pools ∧
      resolveIdx pools offerAsset.info askAsset.info = .ok (oi, ai, ui) ∧
      computeSwap (pools.get oi).amount (pools.get ai).amount (pools.get ui).amount
        offerAsset.amount cfg.poolFees (constantInvariant cfg.ampFactor) = .ok o.comp ∧
      o.offerPool = pools.get oi ∧ o.askPool = pools.get ai ∧
      o.unswappedPool = pools.get ui ∧
      (if o.comp.burnFeeAmount = 0 then Except.ok allTimeBurned
        else storeFee allTimeBurned o.comp.burnFeeAmount ((pools.get ai).getId)) =
        .ok o.allTimeBurned ∧
      storeFee collected o.comp.protocolFeeAmount ((pools.get ai).getId) =
        .ok o.collected ∧
      storeFee allTime o.comp.protocolFeeAmount ((pools.get ai).getId) =
        .ok o.allTime ∧
      o.messages =
        (if o.comp.returnAmount = 0 then []
          else [Asset.intoMsg ⟨(pools.get ai).info, o.comp.returnAmount⟩
            (toAddr.getD sender)]) ++
        (if o.comp.burnFeeAmount = 0 then []
          else [(Asset.mk (pools.get ai).info o.comp.burnFeeAmount).intoBurnMsg]) := by
  unfold swapExec at h
  cases hadj : adjustPoolsSwap collected offerAsset ps with
  | error e => rw [hadj] at h; cases h
  | ok pools =>
    rw [hadj] at h
    dsimp only at h
    cases hidx : resolveIdx pools offerAsset.info askAsset.info with
    | error e => rw [hidx] at h; cases h
    | ok idx =>
      rw [hidx] at h
      obtain ⟨oi, ai, ui⟩ := idx
      dsimp only at h
      cases hcomp : computeSwap (pools.get oi).amount (pools.get ai).amount
          (pools.get ui).amount offerAsset.amount cfg.poolFees
          (constantInvariant cfg.ampFactor) with
      | error e => rw [hcomp] at h; cases h
      | ok comp =>
        rw [hcomp] at h
        dsimp only at h
        cases hms : assertMaxSpread beliefPrice maxSpread offerAsset.amount
            comp.returnAmount comp.spreadAmount (decimals.get oi) (decimals.get ai) with
        | error e => rw [hms] at h; cases h
        | ok u =>
          rw [hms] at h
          dsimp only at h
          have hgid : (Asset.mk (pools.get ai).info comp.burnFeeAmount).getId =
              (pools.get ai).getId := by
            rw [Asset.getId_eq, Asset.getId_eq]
          rw [hgid] at h
          cases hburn : (if comp.burnFeeAmount = 0 then Except.ok allTimeBurned
              else storeFee allTimeBurned comp.burnFeeAmount ((pools.get ai).getId)) with
          | error e => rw [hburn] at h; cases h
          | ok atb2 =>
            rw [hburn] at h
            dsimp only at h
            cases hcol : storeFee collected comp.protocolFeeAmount
                ((pools.get ai).getId) with
            | error e => rw [hcol] at h; cases h
            | ok col2 =>
              rw [hcol] at h
              dsimp only at h
              cases hat : storeFee allTime comp.protocolFeeAmount
                  ((pools.get ai).getId) with
              | error e => rw [hat] at h; cases h
              | ok at2 =>
                rw [hat] at h
                dsimp only at h
                cases h
                exact ⟨pools, oi, ai, ui, rfl, hidx, hcomp, rfl, rfl, rfl,
                  hburn, hcol, hat, rfl⟩

/-! ### Concrete fixtures from the repository's regression tests -/

/-- The native collateral asset of the regression tests. -/
def uusdInfo : AssetInfo := .nativeToken "uusd"

/-- The first token asset of the regression tests. -/
def asset0000Info : AssetInfo := .token "asset0000"

/-- The second token asset of the regression tests. -/
def asset0001Info : AssetInfo := .token "asset0001"

/-- The fee schedule of the regression tests: protocol 0.1 percent,
swap 0.3 percent, burn 0.1 percent. -/
def regressionFees : PoolFee := ⟨⟨10 ^ 15⟩, ⟨3 * 10 ^ 15⟩, ⟨10 ^ 15⟩⟩

/-- The configuration of the regression tests (`amp_factor` 1000, and a
constant amplification schedule equalling it). -/
def regressionConfig : Config := ⟨regressionFees, 1000, 1000, 1000, 0, 0, "collector"⟩

/-- A zero fee ledger over the three configured assets, as created at
instantiation. -/
def zeroLedger : List Asset := [⟨uusdInfo, 0⟩, ⟨asset0000Info, 0⟩, ⟨asset0001Info, 0⟩]

/-- The queried reserves of `try_native_to_token` at execution time: the
1 500 000 000 uusd offer is already credited to the contract. -/
def regressionPoolsExec : PoolsSnapshot :=
  ⟨⟨uusdInfo, 31500000000⟩, ⟨asset0000Info, 20000000000⟩, ⟨asset0001Info, 20000000000⟩⟩

/-- The pre-swap reserves of `try_native_to_token`, used by the
simulation query. -/
def regressionPoolsSim : PoolsSnapshot :=
  ⟨⟨uusdInfo, 30000000000⟩, ⟨asset0000Info, 20000000000⟩, ⟨asset0001Info, 20000000000⟩⟩

/-- The asset decimals of `try_native_to_token`. -/
def regressionDecimals : AssetDecimals := ⟨6, 8, 10⟩

/-- The offer of the regression scenario: 1 500 000 000 uusd. -/
def regressionOffer : Asset := ⟨uusdInfo, 1500000000⟩

/-- The ask of the regression scenario (the amount field is ignored). -/
def regressionAsk : Asset := ⟨asset0000Info, 0⟩

/-- The swap computation the regression scenario must produce. -/
def regressionComputation : SwapComputation :=
  ⟨1491773519, 730134, 4497809, 1499269, 1499269⟩

/-- The full outcome of the regression execute swap. -/
def regressionOutcome : SwapOutcome :=
  ⟨⟨uusdInfo, 30000000000⟩, ⟨asset0000Info, 20000000000⟩, ⟨asset0001Info, 20000000000⟩,
    regressionComputation,
    [Msg.send "addr0000" asset0000Info 1491773519, Msg.tokenBurn "asset0000" 1499269],
    [⟨uusdInfo, 0⟩, ⟨asset0000Info, 1499269⟩, ⟨asset0001Info, 0⟩],
    [⟨uusdInfo, 0⟩, ⟨asset0000Info, 1499269⟩, ⟨asset0001Info, 0⟩],
    [⟨uusdInfo, 0⟩, ⟨asset0000Info, 1499269⟩, ⟨asset0001Info, 0⟩]⟩

/-- The queried reserves of `try_token_to_native` at execution time: the
offered 1 500 000 000 asset0000 tokens are already credited (the cw20
hook transfers them before the handler runs). -/
def tokenPoolsExec : PoolsSnapshot :=
  ⟨⟨uusdInfo, 20000000000⟩, ⟨asset0000Info, 31500000000⟩, ⟨asset0001Info, 30000000000⟩⟩

/-- The asset decimals of `try_token_to_native`. -/
def tokenDecimals : AssetDecimals := ⟨8, 8, 10⟩

/-- The token offer of `try_token_to_native`. -/
def tokenOffer : Asset := ⟨asset0000Info, 1500000000⟩

/-- The fee- and deposit-adjusted pools of the `try_token_to_native`
execute swap. -/
def tokenAdjustedPools : PoolsSnapshot :=
  ⟨⟨uusdInfo, 20000000000⟩, ⟨asset0000Info, 30000000000⟩, ⟨asset0001Info, 30000000000⟩⟩

/-! ### C1 -/

/-- C1: with reserves uusd = 30 000 000 000 plus the already-credited
1 500 000 000 uusd offer, asset0000 = asset0001 = 20 000 000 000,
amplification factor 1000, and fees protocol 0.1 percent, swap
0.3 percent, burn 0.1 percent, the execute swap offering 1 500 000 000
uusd for asset0000 — and equally the simulation query on the pre-swap
reserves — yields return_amount 1 491 773 519, spread_amount 730 134,
swap_fee_amount 4 497 809, protocol_fee_amount 1 499 269 and
burn_fee_amount 1 499 269. -/
theorem c1_regression_vector :
    (swapExec regressionPoolsExec regressionDecimals zeroLedger zeroLedger zeroLedger
        regressionConfig "addr0000" regressionOffer regressionAsk
        none none none).map SwapOutcome.comp =
      .ok ⟨1491773519, 730134, 4497809, 1499269, 1499269⟩ ∧
    querySimulation regressionPoolsSim zeroLedger regressionConfig 12345
        regressionOffer regressionAsk =
      .ok ⟨1491773519, 730134, 4497809, 1499269, 1499269⟩ := by
  exact ⟨rfl, rfl⟩

/-! ### C2 -/

/-- C2 (counterexample): in the `try_token_to_native` scenario the
offered asset is the cw20 token asset0000 with queried reserve
31 500 000 000 and a zero pending fee, yet the execute swap path
reduces the offer reserve by the offer amount to 30 000 000 000 —
refuting the claim that the offer reserve is reduced only when the
offered asset is a native coin and never for a token-contract asset. -/
theorem c2_counterexample :
    (swapExec tokenPoolsExec tokenDecimals zeroLedger zeroLedger zeroLedger
        regressionConfig "addr0000" tokenOffer ⟨uusdInfo, 0⟩
        none none (some "third_party")).map SwapOutcome.offerPool =
        .ok ⟨asset0000Info, 30000000000⟩ ∧
      tokenPoolsExec.p1 = ⟨asset0000Info, 31500000000⟩ := by
  exact ⟨rfl, rfl⟩

/-- C2 (amended): in the execute swap path every pool whose asset info
equals the offer asset's info — whether native coin or token contract —
has its reserve reduced by the pending protocol fee and then by the
offer amount, while every other pool is reduced by its pending protocol
fee only; the query adjustment used by the simulation and
reverse-simulation paths subtracts only the pending protocol fees and
never the offer amount. -/
theorem c2_offer_adjustment (collected : List Asset) (offerAsset : Asset)
    (ps : PoolsSnapshot) :
    (∀ qs, adjustPoolsSwap collected offerAsset ps = .ok qs →
      ∀ i : Fin 3, (qs.get i).info = (ps.get i).info ∧
        (qs.get i).amount + getProtocolFeeForAsset collected ((ps.get i).getId) +
          (if (ps.get i).info = offerAsset.info then offerAsset.amount else 0) =
          (ps.get i).amount) ∧
    (∀ qs, adjustPoolsQuery collected ps = .ok qs →
      ∀ i : Fin 3, (qs.get i).info = (ps.get i).info ∧
        (qs.get i).amount + getProtocolFeeForAsset collected ((ps.get i).getId) =
          (ps.get i).amount) := by
  constructor
  · intro qs h i
    obtain ⟨_, h2, h3⟩ := adjustPoolsSwap_ok_slots collected offerAsset ps qs h i
    exact ⟨h2, h3⟩
  · intro qs h i
    obtain ⟨hle, heq⟩ := (adjustPoolsQuery_ok_iff collected ps qs).mp h
    rw [heq i]
    refine ⟨rfl, ?_⟩
    dsimp only
    have := hle i
    omega

/-- C2 witness: the amended adjustment facts evaluated on the
`try_token_to_native` inputs, token offer slot. -/
theorem c2_offer_adjustment_witness :
    (tokenAdjustedPools.get 1).info = (tokenPoolsExec.get 1).info ∧
    (tokenAdjustedPools.get 1).amount +
      getProtocolFeeForAsset zeroLedger ((tokenPoolsExec.get 1).getId) +
      (if (tokenPoolsExec.get 1).info = tokenOffer.info then tokenOffer.amount else 0) =
      (tokenPoolsExec.get 1).amount :=
  (c2_offer_adjustment zeroLedger tokenOffer tokenPoolsExec).1 tokenAdjustedPools rfl 1

/-! ### C3 -/

/-- C3: every successful execute swap adds the computed
protocol_fee_amount to both the pending and the all-time protocol-fee
ledgers under the ask asset's identifier, leaves every other identifier
unchanged in both ledgers, and in particular records nothing under the
offer asset's identifier (which differs from the ask identifier since
the pool's identifiers are unique). -/
theorem c3_protocol_fee_recording (ps : PoolsSnapshot) (decimals : AssetDecimals)
    (collected allTime allTimeBurned : List Asset) (cfg : Config) (sender : String)
    (offerAsset askAsset : Asset) (beliefPrice maxSpread : Option Nat)
    (toAddr : Option String) (o : SwapOutcome)
    (h : swapExec ps decimals collected allTime allTimeBurned cfg sender
      offerAsset askAsset beliefPrice maxSpread toAddr = .ok o)
    (hids : ps.p0.getId ≠ ps.p1.getId ∧ ps.p0.getId ≠ ps.p2.getId ∧
      ps.p1.getId ≠ ps.p2.getId)
    (hc : containsId collected o.askPool.getId = true)
    (ha : containsId allTime o.askPool.getId = true) :
    ledgerAmount o.collected o.askPool.getId =
      ledgerAmount collected o.askPool.getId + o.comp.protocolFeeAmount ∧
    ledgerAmount o.allTime o.askPool.getId =
      ledgerAmount allTime o.askPool.getId + o.comp.protocolFeeAmount ∧
    (∀ otherId, otherId ≠ o.askPool.getId →
      ledgerAmount o.collected otherId = ledgerAmount collected otherId ∧
      ledgerAmount o.allTime otherId = ledgerAmount allTime otherId) ∧
    o.offerPool.getId ≠ o.askPool.getId ∧
    ledgerAmount o.collected o.offerPool.getId =
      ledgerAmount collected o.offerPool.getId ∧
    ledgerAmount o.allTime o.offerPool.getId =
      ledgerAmount allTime o.offerPool.getId := by
  obtain ⟨pools, oi, ai, ui, hadj, hidx, hcomp, hop, hap, hup, hburn, hcol, hat,
    hmsgs⟩ := swapExec_ok_inv ps decimals collected allTime allTimeBurned cfg
      sender offerAsset askAsset beliefPrice maxSpread toAddr o h
  have hslots := adjustPoolsSwap_ok_slots collected offerAsset ps pools hadj
  have hgid : ∀ i : Fin 3, (pools.get i).getId = (ps.get i).getId := by
    intro i
    rw [Asset.getId_eq, Asset.getId_eq, (hslots i).2.1]
  obtain ⟨h01, h02, h12⟩ := hids
  have hdiff : ∀ i j : Fin 3, i ≠ j → (ps.get i).getId ≠ (ps.get j).getId := by
    intro i j hne
    fin_cases i <;> fin_cases j <;> simp only [PoolsSnapshot.get] <;>
      first
        | exact absurd rfl hne
        | exact h01
        | exact h02
        | exact h12
        | exact Ne.symm h01
        | exact Ne.symm h02
        | exact Ne.symm h12
  obtain ⟨_, _, hoiai⟩ := resolveIdx_ok_props pools offerAsset.info askAsset.info
    oi ai ui hidx
  rw [hap] at hc ha
  obtain ⟨hc1, hc2, _⟩ := storeFee_ok_cases o.comp.protocolFeeAmount
    ((pools.get ai).getId) collected o.collected hcol
  obtain ⟨ha1, ha2, _⟩ := storeFee_ok_cases o.comp.protocolFeeAmount
    ((pools.get ai).getId) allTime o.allTime hat
  rw [hc] at hc1
  rw [ha] at ha1
  have hne : o.offerPool.getId ≠ o.askPool.getId := by
    rw [hop, hap, hgid oi, hgid ai]
    exact hdiff oi ai hoiai
  refine ⟨?_, ?_, ?_, hne, ?_, ?_⟩
  · rw [hap]; simpa using hc1
  · rw [hap]; simpa using ha1
  · intro otherId hother
    rw [hap] at hother
    exact ⟨hc2 otherId hother, ha2 otherId hother⟩
  · rw [hap] at hne
    exact hc2 o.offerPool.getId hne
  · rw [hap] at hne
    exact ha2 o.offerPool.getId hne

/-- C3 witness: the recording facts evaluated on the regression swap. -/
theorem c3_protocol_fee_recording_witness :
    ledgerAmount regressionOutcome.collected regressionOutcome.askPool.getId =
      ledgerAmount zeroLedger regressionOutcome.askPool.getId +
        regressionOutcome.comp.protocolFeeAmount ∧
    ledgerAmount regressionOutcome.allTime regressionOutcome.askPool.getId =
      ledgerAmount zeroLedger regressionOutcome.askPool.getId +
        regressionOutcome.comp.protocolFeeAmount ∧
    (∀ otherId, otherId ≠ regressionOutcome.askPool.getId →
      ledgerAmount regressionOutcome.collected otherId =
        ledgerAmount zeroLedger otherId ∧
      ledgerAmount regressionOutcome.allTime otherId =
        ledgerAmount zeroLedger otherId) ∧
    regressionOutcome.offerPool.getId ≠ regressionOutcome.askPool.getId ∧
    ledgerAmount regressionOutcome.collected regressionOutcome.offerPool.getId =
      ledgerAmount zeroLedger regressionOutcome.offerPool.getId ∧
    ledgerAmount regressionOutcome.allTime regressionOutcome.offerPool.getId =
      ledgerAmount zeroLedger regressionOutcome.offerPool.getId :=
  c3_protocol_fee_recording regressionPoolsExec regressionDecimals zeroLedger
    zeroLedger zeroLedger regressionConfig "addr0000" regressionOffer
    regressionAsk none none none regressionOutcome rfl
    ⟨by decide, by decide, by decide⟩ rfl rfl

/-! ### C4 -/

/-- C4: whenever the offer and ask assets are the same configured asset,
or either of them is not among the pool's three configured assets, the
execute swap, the simulation query and the reverse-simulation query all
fail with `AssetMismatch` (given that the preceding reserve adjustment
itself succeeded, so the role ladder is reached), and hence no role
assignment is produced. -/
theorem c4_asset_mismatch (ps qs qq : PoolsSnapshot) (decimals : AssetDecimals)
    (collected allTime allTimeBurned : List Asset) (cfg : Config) (sender : String)
    (offerAsset askAsset : Asset) (beliefPrice maxSpread : Option Nat)
    (toAddr : Option String) (currentBlock : Nat)
    (hdist : ps.p0.info ≠ ps.p1.info ∧ ps.p0.info ≠ ps.p2.info ∧
      ps.p1.info ≠ ps.p2.info)
    (hbad : offerAsset.info = askAsset.info ∨
      (offerAsset.info ≠ ps.p0.info ∧ offerAsset.info ≠ ps.p1.info ∧
        offerAsset.info ≠ ps.p2.info) ∨
      (askAsset.info ≠ ps.p0.info ∧ askAsset.info ≠ ps.p1.info ∧
        askAsset.info ≠ ps.p2.info))
    (hqs : adjustPoolsSwap collected offerAsset ps = .ok qs)
    (hqq : adjustPoolsQuery collected ps = .ok qq) :
    swapExec ps decimals collected allTime allTimeBurned cfg sender offerAsset
      askAsset beliefPrice maxSpread toAddr = .error .assetMismatch ∧
    querySimulation ps collected cfg currentBlock offerAsset askAsset =
      .error .assetMismatch ∧
    queryReverseSimulation ps collected cfg currentBlock askAsset offerAsset =
      .error .assetMismatch := by
  obtain ⟨hd01, hd02, hd12⟩ := hdist
  have hslots := adjustPoolsSwap_ok_slots collected offerAsset ps qs hqs
  have es0 : qs.p0.info = ps.p0.info := (hslots 0).2.1
  have es1 : qs.p1.info = ps.p1.info := (hslots 1).2.1
  have es2 : qs.p2.info = ps.p2.info := (hslots 2).2.1
  obtain ⟨_, heq⟩ := (adjustPoolsQuery_ok_iff collected ps qq).mp hqq
  have eq0 : qq.p0.info = ps.p0.info := by
    have h0 := heq 0; simp only [PoolsSnapshot.get] at h0; rw [h0]
  have eq1 : qq.p1.info = ps.p1.info := by
    have h1 := heq 1; simp only [PoolsSnapshot.get] at h1; rw [h1]
  have eq2 : qq.p2.info = ps.p2.info := by
    have h2 := heq 2; simp only [PoolsSnapshot.get] at h2; rw [h2]
  have hressw : resolveIdx qs offerAsset.info askAsset.info =
      .error .assetMismatch :=
    resolveIdx_mismatch qs offerAsset.info askAsset.info
      (by rw [es0, es1]; exact hd01)
      (by rw [es0, es2]; exact hd02)
      (by rw [es1, es2]; exact hd12)
      (by rw [es0, es1, es2]; exact hbad)
  have hresq : resolveIdx qq offerAsset.info askAsset.info =
      .error .assetMismatch :=
    resolveIdx_mismatch qq offerAsset.info askAsset.info
      (by rw [eq0, eq1]; exact hd01)
      (by rw [eq0, eq2]; exact hd02)
      (by rw [eq1, eq2]; exact hd12)
      (by rw [eq0, eq1, eq2]; exact hbad)
  refine ⟨?_, ?_, ?_⟩
  · unfold swapExec
    rw [hqs]
    dsimp only
    rw [hressw]
  · unfold querySimulation
    rw [hqq]
    dsimp only
    rw [hresq]
  · unfold queryReverseSimulation
    rw [hqq]
    dsimp only
    rw [hresq]

/-- C4 witness: offering uusd while asking uusd on the regression pool
fails with `AssetMismatch` on all three paths. -/
theorem c4_asset_mismatch_witness :
    swapExec regressionPoolsExec regressionDecimals zeroLedger zeroLedger
      zeroLedger regressionConfig "addr0000" regressionOffer ⟨uusdInfo, 0⟩
      none none none = .error .assetMismatch ∧
    querySimulation regressionPoolsExec zeroLedger regressionConfig 0
      regressionOffer ⟨uusdInfo, 0⟩ = .error .assetMismatch ∧
    queryReverseSimulation regressionPoolsExec zeroLedger regressionConfig 0
      ⟨uusdInfo, 0⟩ regressionOffer = .error .assetMismatch :=
  c4_asset_mismatch regressionPoolsExec regressionPoolsSim regressionPoolsExec
    regressionDecimals zeroLedger zeroLedger zeroLedger regressionConfig
    "addr0000" regressionOffer ⟨uusdInfo, 0⟩ none none none 0
    ⟨by decide, by decide, by decide⟩ (Or.inl rfl) rfl rfl

/-! ### C5 -/

/-- C5: with a zero LP total supply, providing deposits `(d0, d1, d2)`
mints `compute_d(d0,d1,d2) − MINIMUM_LIQUIDITY_AMOUNT·3` shares to the
depositor and `MINIMUM_LIQUIDITY_AMOUNT·3` shares to the pool contract
itself, and fails with `InvalidInitialLiquidityAmount` whenever the
computed `D` is below `MINIMUM_LIQUIDITY_AMOUNT·3`. -/
theorem c5_first_deposit (i0 i1 i2 : AssetInfo) (r0 r1 r2 d0 d1 d2 : Nat)
    (collected : List Asset) (cfg : Config) (lpToken contractAddr sender : String)
    (receiver : Option String) (n0 n1 n2 : Asset) (pools : PoolsSnapshot) (D : Nat)
    (hd01 : i0 ≠ i1) (hd02 : i0 ≠ i2) (hd12 : i1 ≠ i2)
    (hz0 : d0 ≠ 0) (hz1 : d1 ≠ 0) (hz2 : d2 ≠ 0)
    (hs0 : subtractNativeDeposit ⟨i0, r0⟩ d0 = .ok n0)
    (hs1 : subtractNativeDeposit ⟨i1, r1⟩ d1 = .ok n1)
    (hs2 : subtractNativeDeposit ⟨i2, r2⟩ d2 = .ok n2)
    (hadj : adjustPoolsQuery collected ⟨n0, n1, n2⟩ = .ok pools)
    (hD : (constantInvariant cfg.ampFactor).computeD d0 d1 d2 = some D)
    (hD128 : D < uint128Bound) :
    provideLiquidity ⟨⟨i0, r0⟩, ⟨i1, r1⟩, ⟨i2, r2⟩⟩ collected
      [⟨i0, d0⟩, ⟨i1, d1⟩, ⟨i2, d2⟩] 0 cfg none lpToken contractAddr sender
      receiver =
      (if minimumLiquidityAmount * 3 ≤ D then
        .ok (pullMsgs ⟨⟨i0, r0⟩, ⟨i1, r1⟩, ⟨i2, r2⟩⟩ (d0, d1, d2) sender
            contractAddr ++
          [Msg.mintLp lpToken contractAddr (minimumLiquidityAmount * 3),
           Msg.mintLp lpToken (receiver.getD sender)
             (D - minimumLiquidityAmount * 3)],
          D - minimumLiquidityAmount * 3)
      else .error (.invalidInitialLiquidityAmount (minimumLiquidityAmount * 3))) := by
  have hf0 : findDeposit [⟨i0, d0⟩, ⟨i1, d1⟩, ⟨i2, d2⟩] i0 = .ok d0 := by
    simp [findDeposit, List.find?]
  have hf1 : findDeposit [⟨i0, d0⟩, ⟨i1, d1⟩, ⟨i2, d2⟩] i1 = .ok d1 := by
    simp [findDeposit, List.find?, hd01]
  have hf2 : findDeposit [⟨i0, d0⟩, ⟨i1, d1⟩, ⟨i2, d2⟩] i2 = .ok d2 := by
    simp [findDeposit, List.find?, hd02, hd12]
  unfold provideLiquidity
  dsimp only
  rw [hf0, hf1, hf2]
  dsimp only
  rw [if_neg (by simp [hz0, hz1, hz2])]
  rw [hs0, hs1, hs2]
  dsimp only
  rw [hadj]
  dsimp only [assertSlippageTolerance]
  rw [if_pos rfl, hD]
  dsimp only
  rw [if_pos hD128]
  unfold checkedSub
  by_cases hmin : minimumLiquidityAmount * 3 ≤ D
  · rw [if_pos hmin, if_pos hmin]
    simp [List.append_assoc]
  · rw [if_neg hmin, if_neg hmin]

/-- C5 witness: the first-deposit rule evaluated at a balanced
1 000 000-per-asset first provision (D = 3 000 000, minting
2 997 000 to the depositor and 3 000 to the pool). -/
theorem c5_first_deposit_witness :
    provideLiquidity ⟨⟨uusdInfo, 1000000⟩, ⟨asset0000Info, 0⟩, ⟨asset0001Info, 0⟩⟩
      zeroLedger [⟨uusdInfo, 1000000⟩, ⟨asset0000Info, 1000000⟩,
        ⟨asset0001Info, 1000000⟩] 0 regressionConfig none "liquidity0000"
      "contract" "addr0000" none =
      (if minimumLiquidityAmount * 3 ≤ 3000000 then
        .ok (pullMsgs ⟨⟨uusdInfo, 1000000⟩, ⟨asset0000Info, 0⟩, ⟨asset0001Info, 0⟩⟩
            (1000000, 1000000, 1000000) "addr0000" "contract" ++
          [Msg.mintLp "liquidity0000" "contract" (minimumLiquidityAmount * 3),
           Msg.mintLp "liquidity0000" ((none : Option String).getD "addr0000")
             (3000000 - minimumLiquidityAmount * 3)],
          3000000 - minimumLiquidityAmount * 3)
      else .error (.invalidInitialLiquidityAmount (minimumLiquidityAmount * 3))) :=
  c5_first_deposit uusdInfo asset0000Info asset0001Info 1000000 0 0
    1000000 1000000 1000000 zeroLedger regressionConfig "liquidity0000"
    "contract" "addr0000" none ⟨uusdInfo, 0⟩ ⟨asset0000Info, 0⟩ ⟨asset0001Info, 0⟩
    ⟨⟨uusdInfo, 0⟩, ⟨asset0000Info, 0⟩, ⟨asset0001Info, 0⟩⟩ 3000000
    (by decide) (by decide) (by decide) (by decide) (by decide) (by decide)
    rfl rfl rfl rfl rfl (by decide)

/-! ### Withdrawal characterization -/

theorem decimalFromRatio_le (amount totalShare : Nat) (hts : totalShare ≠ 0)
    (hamt : amount ≤ totalShare) :
    amount * decimalFractional / totalShare ≤ decimalFractional := by
  have h1 : amount * decimalFractional ≤ totalShare * decimalFractional :=
    Nat.mul_le_mul_right decimalFractional hamt
  calc amount * decimalFractional / totalShare
      ≤ totalShare * decimalFractional / totalShare := Nat.div_le_div_right h1
    _ = decimalFractional :=
        Nat.mul_div_cancel_left decimalFractional (Nat.pos_of_ne_zero hts)

theorem decimalFromRatio_ok (amount totalShare : Nat) (hts : totalShare ≠ 0)
    (hamt : amount ≤ totalShare) :
    decimalFromRatio amount totalShare =
      .ok (amount * decimalFractional / totalShare) := by
  unfold decimalFromRatio
  rw [if_neg hts, if_pos]
  have h2 : decimalFractional < uint128Bound := by
    norm_num [decimalFractional, uint128Bound]
  exact lt_of_le_of_lt (decimalFromRatio_le amount totalShare hts hamt) h2

theorem refundAsset_eq (collected : List Asset) (ratio : Nat) (p : Asset)
    (hp : p.amount < uint128Bound) (hr : ratio ≤ decimalFractional) :
    refundAsset collected ratio p =
      (if getProtocolFeeForAsset collected p.getId ≤ p.amount then
        Except.ok ⟨p.info, (p.amount - getProtocolFeeForAsset collected p.getId) *
          ratio / decimalFractional⟩
      else Except.error ContractError.overflow) := by
  unfold refundAsset checkedSubE
  by_cases hf : getProtocolFeeForAsset collected p.getId ≤ p.amount
  · rw [if_pos hf, if_pos hf]
    dsimp only
    unfold mulRatioDecimal
    rw [if_pos]
    have hle : (p.amount - getProtocolFeeForAsset collected p.getId) * ratio /
        decimalFractional ≤ p.amount - getProtocolFeeForAsset collected p.getId := by
      have hF : 0 < decimalFractional := by norm_num [decimalFractional]
      calc (p.amount - getProtocolFeeForAsset collected p.getId) * ratio /
            decimalFractional
          ≤ (p.amount - getProtocolFeeForAsset collected p.getId) *
              decimalFractional / decimalFractional :=
            Nat.div_le_div_right (Nat.mul_le_mul_left _ hr)
        _ = p.amount - getProtocolFeeForAsset collected p.getId :=
            Nat.mul_div_cancel _ hF
    exact lt_of_le_of_lt hle (lt_of_le_of_lt (Nat.sub_le _ _) hp)
  · rw [if_neg hf, if_neg hf]

theorem withdrawLiquidity_char (ps : PoolsSnapshot) (collected : List Asset)
    (amount totalShare : Nat) (lpToken sender : String)
    (hts : totalShare ≠ 0) (hamt : amount ≤ totalShare)
    (hb0 : ps.p0.amount < uint128Bound) (hb1 : ps.p1.amount < uint128Bound)
    (hb2 : ps.p2.amount < uint128Bound) :
    withdrawLiquidity ps collected amount totalShare lpToken sender =
      (if getProtocolFeeForAsset collected ps.p0.getId ≤ ps.p0.amount ∧
          getProtocolFeeForAsset collected ps.p1.getId ≤ ps.p1.amount ∧
          getProtocolFeeForAsset collected ps.p2.getId ≤ ps.p2.amount then
        Except.ok
          ([⟨ps.p0.info, (ps.p0.amount - getProtocolFeeForAsset collected ps.p0.getId) *
              (amount * decimalFractional / totalShare) / decimalFractional⟩,
            ⟨ps.p1.info, (ps.p1.amount - getProtocolFeeForAsset collected ps.p1.getId) *
              (amount * decimalFractional / totalShare) / decimalFractional⟩,
            ⟨ps.p2.info, (ps.p2.amount - getProtocolFeeForAsset collected ps.p2.getId) *
              (amount * decimalFractional / totalShare) / decimalFractional⟩],
           [Msg.send sender ps.p0.info
              ((ps.p0.amount - getProtocolFeeForAsset collected ps.p0.getId) *
                (amount * decimalFractional / totalShare) / decimalFractional),
            Msg.send sender ps.p1.info
              ((ps.p1.amount - getProtocolFeeForAsset collected ps.p1.getId) *
                (amount * decimalFractional / totalShare) / decimalFractional),
            Msg.send sender ps.p2.info
              ((ps.p2.amount - getProtocolFeeForAsset collected ps.p2.getId) *
                (amount * decimalFractional / totalShare) / decimalFractional),
            Msg.burnLp lpToken amount])
      else Except.error ContractError.overflow) := by
  have hr := decimalFromRatio_le amount totalShare hts hamt
  unfold withdrawLiquidity
  rw [decimalFromRatio_ok amount totalShare hts hamt]
  dsimp only
  rw [refundAsset_eq collected _ ps.p0 hb0 hr,
    refundAsset_eq collected _ ps.p1 hb1 hr,
    refundAsset_eq collected _ ps.p2 hb2 hr]
  by_cases h0 : getProtocolFeeForAsset collected ps.p0.getId ≤ ps.p0.amount
  · rw [if_pos h0]
    by_cases h1 : getProtocolFeeForAsset collected ps.p1.getId ≤ ps.p1.amount
    · rw [if_pos h1]
      by_cases h2 : getProtocolFeeForAsset collected ps.p2.getId ≤ ps.p2.amount
      · rw [if_pos h2, if_pos ⟨h0, h1, h2⟩]
        rfl
      · have hni : ¬(getProtocolFeeForAsset collected ps.p0.getId ≤ ps.p0.amount ∧
            getProtocolFeeForAsset collected ps.p1.getId ≤ ps.p1.amount ∧
            getProtocolFeeForAsset collected ps.p2.getId ≤ ps.p2.amount) := by
          intro hcon
          exact h2 hcon.2.2
        rw [if_neg h2, if_neg hni]
        try rfl
    · have hni : ¬(getProtocolFeeForAsset collected ps.p0.getId ≤ ps.p0.amount ∧
          getProtocolFeeForAsset collected ps.p1.getId ≤ ps.p1.amount ∧
          getProtocolFeeForAsset collected ps.p2.getId ≤ ps.p2.amount) := by
        intro hcon
        exact h1 hcon.2.1
      rw [if_neg h1, if_neg hni]
      try rfl
  · have hni : ¬(getProtocolFeeForAsset collected ps.p0.getId ≤ ps.p0.amount ∧
        getProtocolFeeForAsset collected ps.p1.getId ≤ ps.p1.amount ∧
        getProtocolFeeForAsset collected ps.p2.getId ≤ ps.p2.amount) := by
      intro hcon
      exact h0 hcon.1
    rw [if_neg h0, if_neg hni]
    try rfl

/-! ### C6 -/

/-- C6: burning `amount` LP shares refunds, for each of the three
assets, exactly the reserve minus the asset's pending protocol fee
(checked subtraction), scaled by the floored `Decimal` ratio
`amount/total_share`; the response carries one transfer per asset plus
the LP burn instruction, and if any of the three checked subtractions
underflows the whole withdrawal fails with `OverflowError`, producing
no transfer and no burn instruction. -/
theorem c6_withdraw_liquidity (ps : PoolsSnapshot) (collected : List Asset)
    (amount totalShare : Nat) (lpToken sender : String)
    (hts : totalShare ≠ 0) (hamt : amount ≤ totalShare)
    (hb0 : ps.p0.amount < uint128Bound) (hb1 : ps.p1.amount < uint128Bound)
    (hb2 : ps.p2.amount < uint128Bound) :
    withdrawLiquidity ps collected amount totalShare lpToken sender =
      (if getProtocolFeeForAsset collected ps.p0.getId ≤ ps.p0.amount ∧
          getProtocolFeeForAsset collected ps.p1.getId ≤ ps.p1.amount ∧
          getProtocolFeeForAsset collected ps.p2.getId ≤ ps.p2.amount then
        Except.ok
          ([⟨ps.p0.info, (ps.p0.amount - getProtocolFeeForAsset collected ps.p0.getId) *
              (amount * decimalFractional / totalShare) / decimalFractional⟩,
            ⟨ps.p1.info, (ps.p1.amount - getProtocolFeeForAsset collected ps.p1.getId) *
              (amount * decimalFractional / totalShare) / decimalFractional⟩,
            ⟨ps.p2.info, (ps.p2.amount - getProtocolFeeForAsset collected ps.p2.getId) *
              (amount * decimalFractional / totalShare) / decimalFractional⟩],
           [Msg.send sender ps.p0.info
              ((ps.p0.amount - getProtocolFeeForAsset collected ps.p0.getId) *
                (amount * decimalFractional / totalShare) / decimalFractional),
            Msg.send sender ps.p1.info
              ((ps.p1.amount - getProtocolFeeForAsset collected ps.p1.getId) *
                (amount * decimalFractional / totalShare) / decimalFractional),
            Msg.send sender ps.p2.info
              ((ps.p2.amount - getProtocolFeeForAsset collected ps.p2.getId) *
                (amount * decimalFractional / totalShare) / decimalFractional),
            Msg.burnLp lpToken amount])
      else Except.error ContractError.overflow) :=
  withdrawLiquidity_char ps collected amount totalShare lpToken sender hts hamt
    hb0 hb1 hb2

/-- C6 witness: the withdrawal rule evaluated on the regression pool,
burning 100 of 30 000 000 000 shares. -/
theorem c6_withdraw_liquidity_witness :
    withdrawLiquidity regressionPoolsSim zeroLedger 100 30000000000
      "liquidity0000" "addr0000" =
      (if getProtocolFeeForAsset zeroLedger regressionPoolsSim.p0.getId ≤
            regressionPoolsSim.p0.amount ∧
          getProtocolFeeForAsset zeroLedger regressionPoolsSim.p1.getId ≤
            regressionPoolsSim.p1.amount ∧
          getProtocolFeeForAsset zeroLedger regressionPoolsSim.p2.getId ≤
            regressionPoolsSim.p2.amount then
        Except.ok
          ([⟨regressionPoolsSim.p0.info, (regressionPoolsSim.p0.amount -
              getProtocolFeeForAsset zeroLedger regressionPoolsSim.p0.getId) *
              (100 * decimalFractional / 30000000000) / decimalFractional⟩,
            ⟨regressionPoolsSim.p1.info, (regressionPoolsSim.p1.amount -
              getProtocolFeeForAsset zeroLedger regressionPoolsSim.p1.getId) *
              (100 * decimalFractional / 30000000000) / decimalFractional⟩,
            ⟨regressionPoolsSim.p2.info, (regressionPoolsSim.p2.amount -
              getProtocolFeeForAsset zeroLedger regressionPoolsSim.p2.getId) *
              (100 * decimalFractional / 30000000000) / decimalFractional⟩],
           [Msg.send "addr0000" regressionPoolsSim.p0.info
              ((regressionPoolsSim.p0.amount -
                getProtocolFeeForAsset zeroLedger regressionPoolsSim.p0.getId) *
                (100 * decimalFractional / 30000000000) / decimalFractional),
            Msg.send "addr0000" regressionPoolsSim.p1.info
              ((regressionPoolsSim.p1.amount -
                getProtocolFeeForAsset zeroLedger regressionPoolsSim.p1.getId) *
                (100 * decimalFractional / 30000000000) / decimalFractional),
            Msg.send "addr0000" regressionPoolsSim.p2.info
              ((regressionPoolsSim.p2.amount -
                getProtocolFeeForAsset zeroLedger regressionPoolsSim.p2.getId) *
                (100 * decimalFractional / 30000000000) / decimalFractional),
            Msg.burnLp "liquidity0000" 100])
      else Except.error ContractError.overflow) :=
  c6_withdraw_liquidity regressionPoolsSim zeroLedger 100 30000000000
    "liquidity0000" "addr0000" (by decide) (by norm_num)
    (by norm_num [regressionPoolsSim, uint128Bound])
    (by norm_num [regressionPoolsSim, uint128Bound])
    (by norm_num [regressionPoolsSim, uint128Bound])

/-! ### Underflow helpers -/

theorem adjustPoolsQuery_underflow (collected : List Asset) (ps : PoolsSnapshot)
    (hlt : ∃ i : Fin 3, (ps.get i).amount <
      getProtocolFeeForAsset collected ((ps.get i).getId)) :
    adjustPoolsQuery collected ps = .error .overflow := by
  cases hres : adjustPoolsQuery collected ps with
  | ok qs =>
    obtain ⟨hle, _⟩ := (adjustPoolsQuery_ok_iff collected ps qs).mp hres
    obtain ⟨i, hi⟩ := hlt
    exact absurd (hle i) (by omega)
  | error e => rw [adjustPoolsQuery_err collected ps e hres]

theorem adjustPoolsSwap_underflow (collected : List Asset) (offerAsset : Asset)
    (ps : PoolsSnapshot)
    (hlt : ∃ i : Fin 3, (ps.get i).amount <
      getProtocolFeeForAsset collected ((ps.get i).getId)) :
    adjustPoolsSwap collected offerAsset ps = .error .overflow := by
  cases hres : adjustPoolsSwap collected offerAsset ps with
  | ok qs =>
    obtain ⟨i, hi⟩ := hlt
    have := (adjustPoolsSwap_ok_slots collected offerAsset ps qs hres i).1
    exact absurd this (by omega)
  | error e => rw [adjustPoolsSwap_err collected offerAsset ps e hres]

theorem queryPool_underflow (ps : PoolsSnapshot) (collected : List Asset)
    (totalShare : Nat)
    (hlt : ∃ i : Fin 3, (ps.get i).amount <
      getProtocolFeeForAsset collected ((ps.get i).getId)) :
    queryPool ps collected totalShare =
      .error (.panicked "attempt to subtract with overflow") := by
  unfold queryPool queryPoolSub
  obtain ⟨i, hi⟩ := hlt
  by_cases h0 : getProtocolFeeForAsset collected ps.p0.getId ≤ ps.p0.amount
  · rw [if_pos h0]
    dsimp only
    by_cases h1 : getProtocolFeeForAsset collected ps.p1.getId ≤ ps.p1.amount
    · rw [if_pos h1]
      dsimp only
      have h2 : ¬getProtocolFeeForAsset collected ps.p2.getId ≤ ps.p2.amount := by
        fin_cases i <;> simp only [PoolsSnapshot.get] at hi <;> omega
      rw [if_neg h2]
    · rw [if_neg h1]
  · rw [if_neg h0]

/-! ### C7 -/

/-- C7 (counterexample): with a uusd reserve of 5 and a pending uusd
protocol fee of 10, the pool query does not fail with `OverflowError` —
the unchecked `Uint128` subtraction at `queries.rs` line 41 panics
instead. -/
theorem c7_counterexample :
    queryPool ⟨⟨uusdInfo, 5⟩, ⟨asset0000Info, 7⟩, ⟨asset0001Info, 9⟩⟩
        [⟨uusdInfo, 10⟩] 100 =
      .error (.panicked "attempt to subtract with overflow") ∧
    queryPool ⟨⟨uusdInfo, 5⟩, ⟨asset0000Info, 7⟩, ⟨asset0001Info, 9⟩⟩
        [⟨uusdInfo, 10⟩] 100 ≠ .error .overflow := by
  refine ⟨rfl, fun h => ?_⟩
  rw [show queryPool ⟨⟨uusdInfo, 5⟩, ⟨asset0000Info, 7⟩, ⟨asset0001Info, 9⟩⟩
      [⟨uusdInfo, 10⟩] 100 =
    .error (.panicked "attempt to subtract with overflow") from rfl] at h
  simp at h

/-- C7 (amended): whenever some pool reserve is smaller than that
asset's pending protocol-fee ledger amount, the execute swap, the
simulation query and the reverse-simulation query fail with
`OverflowError`; the withdrawal fails with `OverflowError` (given the
well-formedness bounds under which the preceding ratio arithmetic
cannot panic first); the liquidity provision fails with `OverflowError`
when the post-native-deposit reserve is smaller than the pending fee;
and the pool query aborts with a panic of the unchecked subtraction
rather than a typed `OverflowError`.  No path wraps around. -/
theorem c7_pending_fee_underflow (ps : PoolsSnapshot) (decimals : AssetDecimals)
    (collected allTime allTimeBurned : List Asset) (cfg : Config) (sender : String)
    (offerAsset askAsset : Asset) (beliefPrice maxSpread : Option Nat)
    (toAddr : Option String) (currentBlock : Nat) (amount totalShare : Nat)
    (lpToken contractAddr : String) (receiver : Option String)
    (hlt : ∃ i : Fin 3, (ps.get i).amount <
      getProtocolFeeForAsset collected ((ps.get i).getId)) :
    swapExec ps decimals collected allTime allTimeBurned cfg sender offerAsset
      askAsset beliefPrice maxSpread toAddr = .error .overflow ∧
    querySimulation ps collected cfg currentBlock offerAsset askAsset =
      .error .overflow ∧
    queryReverseSimulation ps collected cfg currentBlock askAsset offerAsset =
      .error .overflow ∧
    queryPool ps collected totalShare =
      .error (.panicked "attempt to subtract with overflow") ∧
    (totalShare ≠ 0 → amount ≤ totalShare →
      ps.p0.amount < uint128Bound → ps.p1.amount < uint128Bound →
      ps.p2.amount < uint128Bound →
      withdrawLiquidity ps collected amount totalShare lpToken sender =
        .error .overflow) ∧
    (∀ d0 d1 d2 : Nat, ∀ n0 n1 n2 : Asset,
      ps.p0.info ≠ ps.p1.info → ps.p0.info ≠ ps.p2.info →
      ps.p1.info ≠ ps.p2.info →
      d0 ≠ 0 → d1 ≠ 0 → d2 ≠ 0 →
      subtractNativeDeposit ps.p0 d0 = .ok n0 →
      subtractNativeDeposit ps.p1 d1 = .ok n1 →
      subtractNativeDeposit ps.p2 d2 = .ok n2 →
      (∃ i : Fin 3, ((PoolsSnapshot.mk n0 n1 n2).get i).amount <
        getProtocolFeeForAsset collected
          (((PoolsSnapshot.mk n0 n1 n2).get i).getId)) →
      provideLiquidity ps collected
        [⟨ps.p0.info, d0⟩, ⟨ps.p1.info, d1⟩, ⟨ps.p2.info, d2⟩]
        totalShare cfg none lpToken contractAddr sender receiver =
        .error .overflow) := by
  refine ⟨?_, ?_, ?_, ?_, ?_, ?_⟩
  · unfold swapExec
    rw [adjustPoolsSwap_underflow collected offerAsset ps hlt]
  · unfold querySimulation
    rw [adjustPoolsQuery_underflow collected ps hlt]
  · unfold queryReverseSimulation
    rw [adjustPoolsQuery_underflow collected ps hlt]
  · exact queryPool_underflow ps collected totalShare hlt
  · intro hts hamt hb0 hb1 hb2
    rw [withdrawLiquidity_char ps collected amount totalShare lpToken sender
      hts hamt hb0 hb1 hb2]
    rw [if_neg]
    intro hcon
    obtain ⟨i, hi⟩ := hlt
    obtain ⟨hc0, hc1, hc2⟩ := hcon
    fin_cases i <;> simp only [PoolsSnapshot.get] at hi <;> omega
  · intro d0 d1 d2 n0 n1 n2 hd01 hd02 hd12 hz0 hz1 hz2 hs0 hs1 hs2 hlt2
    have hf0 : findDeposit [⟨ps.p0.info, d0⟩, ⟨ps.p1.info, d1⟩,
        ⟨ps.p2.info, d2⟩] ps.p0.info = .ok d0 := by
      simp [findDeposit, List.find?]
    have hf1 : findDeposit [⟨ps.p0.info, d0⟩, ⟨ps.p1.info, d1⟩,
        ⟨ps.p2.info, d2⟩] ps.p1.info = .ok d1 := by
      simp [findDeposit, List.find?, hd01]
    have hf2 : findDeposit [⟨ps.p0.info, d0⟩, ⟨ps.p1.info, d1⟩,
        ⟨ps.p2.info, d2⟩] ps.p2.info = .ok d2 := by
      simp [findDeposit, List.find?, hd02, hd12]
    unfold provideLiquidity
    rw [hf0, hf1, hf2]
    dsimp only
    rw [if_neg (by simp [hz0, hz1, hz2])]
    rw [hs0, hs1, hs2]
    dsimp only
    rw [adjustPoolsQuery_underflow collected ⟨n0, n1, n2⟩ hlt2]

/-- A corrupted pending-fee ledger whose uusd entry exceeds the pool's
uusd reserve. -/
def oversizedFeeLedger : List Asset :=
  [⟨uusdInfo, 50000000000⟩, ⟨asset0000Info, 0⟩, ⟨asset0001Info, 0⟩]

/-- C7 witness: with the oversized pending ledger the execute swap
fails with `OverflowError` and the pool query panics. -/
theorem c7_pending_fee_underflow_witness :
    swapExec regressionPoolsSim regressionDecimals oversizedFeeLedger zeroLedger
      zeroLedger regressionConfig "addr0000" regressionOffer regressionAsk
      none none none = .error .overflow ∧
    queryPool regressionPoolsSim oversizedFeeLedger 100 =
      .error (.panicked "attempt to subtract with overflow") :=
  ⟨(c7_pending_fee_underflow regressionPoolsSim regressionDecimals
      oversizedFeeLedger zeroLedger zeroLedger regressionConfig "addr0000"
      regressionOffer regressionAsk none none none 0 1 100 "liquidity0000"
      "contract" none ⟨0, by decide⟩).1,
   (c7_pending_fee_underflow regressionPoolsSim regressionDecimals
      oversizedFeeLedger zeroLedger zeroLedger regressionConfig "addr0000"
      regressionOffer regressionAsk none none none 0 1 100 "liquidity0000"
      "contract" none ⟨0, by decide⟩).2.2.2.1⟩

/-! ### C8 -/

/-- C8: `collect_protocol_fees` zeroes every pending-ledger entry
(keeping the asset infos), emits a transfer to the fee collector only
for the entries that were nonzero, and leaves both all-time ledgers
untouched; and across every state-mutating operation each all-time
ledger entry is monotonically non-decreasing — no operation ever resets
it. -/
theorem c8_fee_ledger_lifecycle (op : Op) (s s2 : LedgerState) (msgs : List Msg)
    (h : applyOp op s = .ok (s2, msgs)) :
    (∀ assetId, ledgerAmount s.allTime assetId ≤ ledgerAmount s2.allTime assetId) ∧
    (∀ assetId, ledgerAmount s.allTimeBurned assetId ≤
      ledgerAmount s2.allTimeBurned assetId) ∧
    (∀ cfg, op = .collectOp cfg →
      s2.collected = s.collected.map (fun a => ⟨a.info, 0⟩) ∧
      s2.allTime = s.allTime ∧
      s2.allTimeBurned = s.allTimeBurned ∧
      msgs = (s.collected.filter (fun f => f.amount ≠ 0)).map
        (fun f => f.intoMsg cfg.feeCollectorAddr)) := by
  cases op with
  | swapOp ps decimals cfg sender offerAsset askAsset beliefPrice maxSpread toAddr =>
    unfold applyOp at h
    dsimp only at h
    cases hsw : swapExec ps decimals s.collected s.allTime s.allTimeBurned cfg
        sender offerAsset askAsset beliefPrice maxSpread toAddr with
    | error e => rw [hsw] at h; cases h
    | ok o =>
      rw [hsw] at h
      cases h
      obtain ⟨pools, oi, ai, ui, hadj, hidx, hcomp, hop, hap, hup, hburn, hcol,
        hat, hmsgs⟩ := swapExec_ok_inv ps decimals s.collected s.allTime
          s.allTimeBurned cfg sender offerAsset askAsset beliefPrice maxSpread
          toAddr o hsw
      refine ⟨?_, ?_, ?_⟩
      · intro assetId
        exact (storeFee_ok_cases o.comp.protocolFeeAmount ((pools.get ai).getId)
          s.allTime o.allTime hat).2.2 assetId
      · intro assetId
        by_cases hb : o.comp.burnFeeAmount = 0
        · rw [if_pos hb] at hburn
          have heq := Except.ok.inj hburn
          rw [← heq]
        · rw [if_neg hb] at hburn
          exact (storeFee_ok_cases o.comp.burnFeeAmount ((pools.get ai).getId)
            s.allTimeBurned o.allTimeBurned hburn).2.2 assetId
      · intro cfg2 heq
        cases heq
  | collectOp cfg =>
    unfold applyOp at h
    dsimp only at h
    cases hc : collectProtocolFees s.collected cfg.feeCollectorAddr with
    | error e => rw [hc] at h; cases h
    | ok r =>
      rw [hc] at h
      cases h
      unfold collectProtocolFees at hc
      rcases hl : s.collected with _ | ⟨f0, _ | ⟨f1, _ | ⟨f2, _ | ⟨f3, rest⟩⟩⟩⟩ <;>
        rw [hl] at hc
      · cases hc
      · cases hc
      · cases hc
      · cases hc
        refine ⟨fun _ => le_refl _, fun _ => le_refl _, ?_⟩
        intro cfg2 heq
        cases heq
        refine ⟨?_, rfl, rfl, ?_⟩
        · rfl
        · rfl
      · cases hc
  | provideOp ps assets totalShare cfg slippageTolerance lpToken contractAddr sender receiver =>
    unfold applyOp at h
    dsimp only at h
    cases hp : provideLiquidity ps s.collected assets totalShare cfg
        slippageTolerance lpToken contractAddr sender receiver with
    | error e => rw [hp] at h; cases h
    | ok r =>
      rw [hp] at h
      cases h
      exact ⟨fun _ => le_refl _, fun _ => le_refl _, fun cfg2 heq => by cases heq⟩
  | withdrawOp ps amount totalShare lpToken sender =>
    unfold applyOp at h
    dsimp only at h
    cases hw : withdrawLiquidity ps s.collected amount totalShare lpToken sender with
    | error e => rw [hw] at h; cases h
    | ok r =>
      rw [hw] at h
      cases h
      exact ⟨fun _ => le_refl _, fun _ => le_refl _, fun cfg2 heq => by cases heq⟩

/-- A ledger state with two nonzero pending entries, for the collection
sweep. -/
def pendingStateSample : LedgerState :=
  ⟨[⟨uusdInfo, 7⟩, ⟨asset0000Info, 0⟩, ⟨asset0001Info, 3⟩], zeroLedger, zeroLedger⟩

/-- The state after the collection sweep: pending zeroed, all-time
ledgers untouched. -/
def collectedStateSample : LedgerState :=
  ⟨[⟨uusdInfo, 0⟩, ⟨asset0000Info, 0⟩, ⟨asset0001Info, 0⟩], zeroLedger, zeroLedger⟩

/-- The transfers the collection sweep emits: one per nonzero entry. -/
def collectMsgsSample : List Msg :=
  [Msg.send "collector" uusdInfo 7, Msg.send "collector" asset0001Info 3]

/-- C8 witness: the ledger lifecycle facts evaluated on a concrete
collection sweep. -/
theorem c8_fee_ledger_lifecycle_witness :
    ledgerAmount pendingStateSample.allTime "uusd" ≤
      ledgerAmount collectedStateSample.allTime "uusd" ∧
    collectedStateSample.collected =
      pendingStateSample.collected.map (fun a => ⟨a.info, 0⟩) ∧
    collectedStateSample.allTime = pendingStateSample.allTime ∧
    collectMsgsSample = (pendingStateSample.collected.filter
      (fun f => f.amount ≠ 0)).map
      (fun f => f.intoMsg regressionConfig.feeCollectorAddr) :=
  have hthm := c8_fee_ledger_lifecycle (.collectOp regressionConfig)
    pendingStateSample collectedStateSample collectMsgsSample rfl
  have hcoll := hthm.2.2 regressionConfig rfl
  ⟨hthm.1 "uusd", hcoll.1, hcoll.2.1, hcoll.2.2.2⟩

/-! ### C9 -/

/-- Whether an instruction is a burn instruction (of either kind). -/
def isBurnMsg : Msg → Bool
  | .bankBurn _ _ => true
  | .tokenBurn _ _ => true
  | _ => false

/-- C9 (counterexample): the `try_token_to_native` execute swap records
its burn_fee_amount of 1 499 169 uusd into the `ALL_TIME_BURNED_FEES`
ledger (which started at zero) — refuting the claim that the burn fee
is not recorded in any fee ledger. -/
theorem c9_counterexample :
    (swapExec tokenPoolsExec tokenDecimals zeroLedger zeroLedger zeroLedger
        regressionConfig "addr0000" tokenOffer ⟨uusdInfo, 0⟩
        none none (some "third_party")).map
      (fun o => ledgerAmount o.allTimeBurned "uusd") = .ok 1499169 ∧
    ledgerAmount zeroLedger "uusd" = 0 := by
  exact ⟨rfl, rfl⟩

/-- C9 (amended): the burn fee is recorded in exactly one fee ledger —
`ALL_TIME_BURNED_FEES`, under the ask asset's identifier — and in
neither protocol-fee ledger (those receive only the protocol fee); a
nonzero burn_fee_amount produces exactly one burn instruction for the
ask asset, a bank burn for a native coin and a token-contract burn for
a token, while a zero burn_fee_amount produces no burn instruction and
leaves the burned-fee ledger untouched. -/
theorem c9_burn_fee (ps : PoolsSnapshot) (decimals : AssetDecimals)
    (collected allTime allTimeBurned : List Asset) (cfg : Config) (sender : String)
    (offerAsset askAsset : Asset) (beliefPrice maxSpread : Option Nat)
    (toAddr : Option String) (o : SwapOutcome)
    (h : swapExec ps decimals collected allTime allTimeBurned cfg sender
      offerAsset askAsset beliefPrice maxSpread toAddr = .ok o) :
    o.messages.filter isBurnMsg =
      (if o.comp.burnFeeAmount = 0 then []
       else [(Asset.mk o.askPool.info o.comp.burnFeeAmount).intoBurnMsg]) ∧
    (o.comp.burnFeeAmount = 0 → o.allTimeBurned = allTimeBurned) ∧
    (o.comp.burnFeeAmount ≠ 0 →
      storeFee allTimeBurned o.comp.burnFeeAmount o.askPool.getId =
        .ok o.allTimeBurned) ∧
    storeFee collected o.comp.protocolFeeAmount o.askPool.getId = .ok o.collected ∧
    storeFee allTime o.comp.protocolFeeAmount o.askPool.getId = .ok o.allTime ∧
    (∀ denom, o.askPool.info = .nativeToken denom → o.comp.burnFeeAmount ≠ 0 →
      o.messages.filter isBurnMsg = [Msg.bankBurn denom o.comp.burnFeeAmount]) ∧
    (∀ tokenAddr2, o.askPool.info = .token tokenAddr2 → o.comp.burnFeeAmount ≠ 0 →
      o.messages.filter isBurnMsg =
        [Msg.tokenBurn tokenAddr2 o.comp.burnFeeAmount]) := by
  obtain ⟨pools, oi, ai, ui, hadj, hidx, hcomp, hop, hap, hup, hburn, hcol, hat,
    hmsgs⟩ := swapExec_ok_inv ps decimals collected allTime allTimeBurned cfg
      sender offerAsset askAsset beliefPrice maxSpread toAddr o h
  have hfilter : o.messages.filter isBurnMsg =
      (if o.comp.burnFeeAmount = 0 then []
       else [(Asset.mk o.askPool.info o.comp.burnFeeAmount).intoBurnMsg]) := by
    rw [hmsgs, List.filter_append]
    have hr : ((if o.comp.returnAmount = 0 then []
        else [Asset.intoMsg ⟨(pools.get ai).info, o.comp.returnAmount⟩
          (toAddr.getD sender)]).filter isBurnMsg) = [] := by
      by_cases h0 : o.comp.returnAmount = 0 <;>
        simp [h0, Asset.intoMsg, isBurnMsg]
    rw [hr]
    by_cases hb : o.comp.burnFeeAmount = 0
    · simp [hb]
    · rw [if_neg hb, if_neg hb, hap]
      cases hinfo : (pools.get ai).info <;>
        simp [Asset.intoBurnMsg, isBurnMsg, hinfo]
  refine ⟨hfilter, ?_, ?_, ?_, ?_, ?_, ?_⟩
  · intro hb
    rw [if_pos hb] at hburn
    exact (Except.ok.inj hburn).symm
  · intro hb
    rw [if_neg hb] at hburn
    rw [hap]
    exact hburn
  · rw [hap]; exact hcol
  · rw [hap]; exact hat
  · intro denom hinfo hb
    rw [hfilter, if_neg hb, Asset.intoBurnMsg]
    rw [hinfo]
  · intro tokenAddr2 hinfo hb
    rw [hfilter, if_neg hb, Asset.intoBurnMsg]
    rw [hinfo]

/-- The full outcome of the `try_token_to_native` execute swap. -/
def tokenOutcome : SwapOutcome :=
  ⟨⟨asset0000Info, 30000000000⟩, ⟨uusdInfo, 20000000000⟩, ⟨asset0001Info, 30000000000⟩,
    ⟨1491673920, 830233, 4497509, 1499169, 1499169⟩,
    [Msg.send "third_party" uusdInfo 1491673920, Msg.bankBurn "uusd" 1499169],
    [⟨uusdInfo, 1499169⟩, ⟨asset0000Info, 0⟩, ⟨asset0001Info, 0⟩],
    [⟨uusdInfo, 1499169⟩, ⟨asset0000Info, 0⟩, ⟨asset0001Info, 0⟩],
    [⟨uusdInfo, 1499169⟩, ⟨asset0000Info, 0⟩, ⟨asset0001Info, 0⟩]⟩

/-- C9 witness: the burn-fee facts evaluated on the token-to-native
swap — one bank burn of 1 499 169 uusd, recorded in the burned-fee
ledger. -/
theorem c9_burn_fee_witness :
    tokenOutcome.messages.filter isBurnMsg =
      [Msg.bankBurn "uusd" tokenOutcome.comp.burnFeeAmount] ∧
    storeFee zeroLedger tokenOutcome.comp.burnFeeAmount
      tokenOutcome.askPool.getId = .ok tokenOutcome.allTimeBurned :=
  have hthm := c9_burn_fee tokenPoolsExec tokenDecimals zeroLedger zeroLedger
    zeroLedger regressionConfig "addr0000" tokenOffer ⟨uusdInfo, 0⟩
    none none (some "third_party") tokenOutcome rfl
  ⟨hthm.2.2.2.2.2.1 "uusd" rfl (by decide), hthm.2.2.1 (by decide)⟩

/-! ### C10 -/

/-- C10: for the same pre-swap reserve snapshot, pending protocol-fee
ledger, fee schedule, offer/ask pair and offer amount, and a constant
amplification schedule whose initial and future amplification both
equal the execute path's `amp_factor` (and whose interpolation is
well-defined), the simulation query returns exactly the
`SwapComputation` that the execute swap path computes and reports —
the execute path reading the snapshot with the offer deposit already
credited to the matching reserve, as the platform credits it before the
handler runs. -/
theorem c10_simulation_matches_execute (ps : PoolsSnapshot)
    (decimals : AssetDecimals) (collected allTime allTimeBurned : List Asset)
    (cfg : Config) (sender : String) (offerAsset askAsset : Asset)
    (beliefPrice maxSpread : Option Nat) (toAddr : Option String)
    (currentBlock : Nat) (o : SwapOutcome)
    (hAmp1 : cfg.initialAmp = cfg.ampFactor)
    (hAmp2 : cfg.futureAmp = cfg.ampFactor)
    (hRamp : cfg.initialAmpBlock < cfg.futureAmpBlock ∨
      cfg.futureAmpBlock ≤ currentBlock)
    (hExec : swapExec (creditOffer offerAsset ps) decimals collected allTime
      allTimeBurned cfg sender offerAsset askAsset beliefPrice maxSpread toAddr =
      .ok o) :
    querySimulation ps collected cfg currentBlock offerAsset askAsset =
      .ok o.comp := by
  obtain ⟨pools, oi, ai, ui, hadj, hidx, hcomp, hop, hap, hup, hburn, hcol, hat,
    hmsgs⟩ := swapExec_ok_inv (creditOffer offerAsset ps) decimals collected
      allTime allTimeBurned cfg sender offerAsset askAsset beliefPrice maxSpread
      toAddr o hExec
  have hq := adjustPoolsSwap_credit collected offerAsset ps pools hadj
  have hampfac : (scheduleInvariant cfg currentBlock).computeAmpFactor =
      some cfg.ampFactor :=
    computeAmpFactor_flat (scheduleInvariant cfg currentBlock) cfg.ampFactor
      hAmp1 hAmp2 hRamp
  have hcongr := computeSwap_congr (constantInvariant cfg.ampFactor)
    (scheduleInvariant cfg currentBlock)
    (by rw [computeAmpFactor_constant, hampfac])
    (pools.get oi).amount (pools.get ai).amount (pools.get ui).amount
    offerAsset.amount cfg.poolFees
  unfold querySimulation
  rw [hq]
  dsimp only
  rw [hidx]
  dsimp only
  rw [← hcongr]
  exact hcomp

/-- C10 witness: the equivalence evaluated on the regression scenario
(the execute path reads the snapshot with the deposit credited; the
simulation reads the pre-swap snapshot and reports the same five
amounts). -/
theorem c10_simulation_matches_execute_witness :
    querySimulation regressionPoolsSim zeroLedger regressionConfig 5
      regressionOffer regressionAsk = .ok regressionOutcome.comp :=
  c10_simulation_matches_execute regressionPoolsSim regressionDecimals
    zeroLedger zeroLedger zeroLedger regressionConfig "addr0000"
    regressionOffer regressionAsk none none none 5 regressionOutcome
    rfl rfl (Or.inr (by decide)) rfl
